import Mathlib

/-!
Shallow embedding of the signaling / matchmaking server of the
`webrtc-demo` repository (`src/server/server.js`, socket.io variant;
the queue-variant cleanup tick of `src/unnamed/part_004` is modelled
separately as `cleanupOldRoomsTick`).

JavaScript `Map`s are modelled as association lists in insertion order
(`Map.set` replaces in place or appends, `Map.delete` removes the key,
iteration follows list order — exactly JS `Map` semantics when keys are
unique).  Socket liveness (`io.sockets.sockets.get(id)`) is modelled by
a `liveSockets : List String` field.  Timers are modelled explicitly:
`cleanupTimer : Bool` records a pending one-shot token reaper, and the
timer callback body is the separate transition `fireTokenCleanup`.
Randomly generated ids (`generateId`, `generateRoomId`, `generateToken`)
are passed in as parameters of the corresponding transitions.
-/

namespace WebrtcSignal

/-- Association-list lookup, mirroring JS `Map.get` (via first match). -/
def alGet {α : Type} (m : List (String × α)) (k : String) : Option α :=
  (m.find? (fun p => p.1 == k)).map (·.2)

/-- JS `Map.has`. -/
def alHas {α : Type} (m : List (String × α)) (k : String) : Bool :=
  (alGet m k).isSome

/-- JS `Map.set`: replace the entry in place if the key exists, else append. -/
def alSet {α : Type} (m : List (String × α)) (k : String) (v : α) :
    List (String × α) :=
  match m with
  | [] => [(k, v)]
  | p :: rest => if p.1 = k then (k, v) :: rest else p :: alSet rest k v

/-- JS `Map.delete` (keys are unique in every state the server builds). -/
def alDel {α : Type} (m : List (String × α)) (k : String) :
    List (String × α) :=
  m.filter (fun p => p.1 ≠ k)

/-- One entry of `waitingUsers`:
`userId -> { socket, socketId, audioEnabled, videoEnabled, joinTime, token }`
(the `socket` object is identified by its `socketId`). -/
structure WaitingEntry where
  socketId : String
  audioEnabled : Bool
  videoEnabled : Bool
  joinTime : Nat
  token : String
deriving DecidableEq, Repr

/-- One member record of a room: `{ id, socket, socketId, initiator }`. -/
structure Member where
  id : String
  socketId : String
  initiator : Bool
deriving DecidableEq, Repr

/-- One entry of `activeRooms`: `{ user1, user2, created }`. -/
structure Room where
  user1 : Member
  user2 : Member
  created : Nat
deriving DecidableEq, Repr

/-- One entry of `tokenToUser`:
`{ userId, socketId|null, roomId|null, cleanupTimer|null, lastSeen }`.
`cleanupTimer` is `true` exactly when a one-shot reaper is pending. -/
structure TokenEntry where
  userId : String
  socketId : Option String
  roomId : Option String
  cleanupTimer : Bool
  lastSeen : Option Nat
deriving DecidableEq, Repr

/-- The server's mutable state: the five in-memory stores, the
`userCount` counter and the set of currently connected socket ids. -/
structure ServerState where
  waitingUsers : List (String × WaitingEntry)
  queue : List String
  activeRooms : List (String × Room)
  tokenToUser : List (String × TokenEntry)
  userConnections : List (String × String)
  userCount : Nat
  liveSockets : List String
deriving DecidableEq, Repr

/-- The empty state the server starts in. -/
def initState : ServerState :=
  { waitingUsers := [], queue := [], activeRooms := [], tokenToUser := [],
    userConnections := [], userCount := 0, liveSockets := [] }

/-- Server → client messages that the modelled handlers emit. -/
inductive Msg where
  | welcome (userId token : String)
  | reconnectSuccess (room : Option String) (userId : String)
  | reconnectFailed
  | partnerReconnected (room : String) (partnerId : String)
  | roomAssigned (room : String) (isInit : Bool) (role : String) (partnerId : String)
  | roomJoined (room : String) (isInit : Bool) (role : String) (partnerId : String)
  | joinFailed (reason : String)
  | partnerSkipped
  | partnerDisconnected (room : String) (partnerId : String)
  | userCountMsg (count : Nat)
deriving DecidableEq, Repr

/-- An emission: either to one socket (`socket.emit`) or an `io.emit`
broadcast. -/
inductive Emit where
  | to (socketId : String) (m : Msg)
  | broadcast (m : Msg)
deriving DecidableEq, Repr

/-- `cleanupUserFromWaiting` (server.js 34-38): drop the user from the
waiting map and splice its first occurrence out of the queue. -/
def cleanupUserFromWaiting (userId : String) (s : ServerState) : ServerState :=
  { s with waitingUsers := alDel s.waitingUsers userId,
           queue := s.queue.erase userId }

/-- `scheduleTokenCleanup` (server.js 40-52): arm a one-shot reaper for
the token unless the entry is missing or a timer is already pending. -/
def scheduleTokenCleanup (token : String) (s : ServerState) : ServerState :=
  match alGet s.tokenToUser token with
  | none => s
  | some e =>
      if e.cleanupTimer then s
      else { s with tokenToUser :=
               alSet s.tokenToUser token { e with cleanupTimer := true } }

/-- The body of the timer armed by `scheduleTokenCleanup`
(server.js 44-51): delete the token iff it still has no socket and no
room; otherwise just clear the pending-timer mark. -/
def fireTokenCleanup (token : String) (s : ServerState) : ServerState :=
  match alGet s.tokenToUser token with
  | none => s
  | some cur =>
      if cur.socketId = none ∧ cur.roomId = none then
        { s with tokenToUser := alDel s.tokenToUser token }
      else
        { s with tokenToUser :=
            alSet s.tokenToUser token { cur with cleanupTimer := false } }

/-- `cancelTokenCleanup` (server.js 54-60). -/
def cancelTokenCleanup (token : String) (s : ServerState) : ServerState :=
  match alGet s.tokenToUser token with
  | none => s
  | some e =>
      if e.cleanupTimer then
        { s with tokenToUser :=
            alSet s.tokenToUser token { e with cleanupTimer := false } }
      else s

/-- Lexicographic order on code points, the JS `<` on strings
(user ids are ASCII, where code units and code points agree). -/
def charListLt : List Char → List Char → Bool
  | [], [] => false
  | [], _ :: _ => true
  | _ :: _, [] => false
  | c :: cs, d :: ds =>
      if c.toNat < d.toNat then true
      else if d.toNat < c.toNat then false
      else charListLt cs ds

/-- JS string comparison `a < b`. -/
def strLt (a b : String) : Bool := charListLt a.data b.data

/-- `determineInitiator` (server.js 94-98), returned as
`(initiator, responder)`.  `joinTime` is a `Nat`, so the JS `||0`
default is the identity. -/
def determineInitiator (aId : String) (aJoin : Nat) (bId : String) (bJoin : Nat) :
    String × String :=
  if aJoin < bJoin then (aId, bId)
  else if bJoin < aJoin then (bId, aId)
  else if strLt aId bId then (aId, bId) else (bId, aId)

/-- `popCandidateFromQueue` (server.js 78-91): shift queue entries,
skipping the requester and falsy ids, skipping ids no longer in the
waiting map, and deleting-then-skipping ids whose socket is dead, until
a live waiter is found or the queue is exhausted.  Returns the remaining
queue, the updated waiting map, and the found candidate if any. -/
def popCandidateFromQueue (requesterId : String) (live : List String) :
    List String → List (String × WaitingEntry) →
    List String × List (String × WaitingEntry) × Option (String × WaitingEntry)
  | [], w => ([], w, none)
  | cand :: rest, w =>
      if cand = "" ∨ cand = requesterId then
        popCandidateFromQueue requesterId live rest w
      else
        match alGet w cand with
        | none => popCandidateFromQueue requesterId live rest w
        | some candData =>
            if live.contains candData.socketId then (rest, w, some (cand, candData))
            else popCandidateFromQueue requesterId live rest (alDel w cand)

/-- `activeRooms.values().some(r => r.user1.id === u || r.user2.id === u)`
(server.js 182). -/
def userInRoom (userId : String) (rooms : List (String × Room)) : Bool :=
  rooms.any (fun p => p.2.user1.id == userId || p.2.user2.id == userId)

/-- The double `if (isUser1) ... if (isUser2) ...` socket rebind used by
the handshake-attach branch (server.js 132-133) and by `join_room`
(server.js 232-233). -/
def rebindMemberSockets (userId sid : String) (room : Room) : Room :=
  let r1 :=
    if room.user1.id = userId then
      { room with user1 := { room.user1 with socketId := sid } }
    else room
  if r1.user2.id = userId then
    { r1 with user2 := { r1.user2 with socketId := sid } }
  else r1

/-- The `find_partner` handler (server.js 177-221).  `now` stands for
`Date.now()` and `newRoomId` for the freshly generated room id. -/
def findPartnerOp (userId socketId token : String)
    (audioEnabled videoEnabled : Bool) (now : Nat) (newRoomId : String)
    (s : ServerState) : ServerState × List Emit :=
  if userInRoom userId s.activeRooms then (s, [])
  else if alHas s.waitingUsers userId then (s, [])
  else
    match popCandidateFromQueue userId s.liveSockets s.queue s.waitingUsers with
    | (q1, w1, some (candId, candData)) =>
        let w2 := alDel w1 candId
        let roles := determineInitiator userId now candId candData.joinTime
        let initiatorSocketId :=
          if roles.1 = userId then socketId else candData.socketId
        let responderSocketId :=
          if roles.2 = userId then socketId else candData.socketId
        let roomData : Room :=
          { user1 := { id := roles.1, socketId := initiatorSocketId, initiator := true },
            user2 := { id := roles.2, socketId := responderSocketId, initiator := false },
            created := now }
        let tokens1 := s.tokenToUser.map (fun p =>
          (p.1, if p.2.userId = roles.1 ∨ p.2.userId = roles.2 then
                  { p.2 with roomId := some newRoomId }
                else p.2))
        ({ s with queue := q1, waitingUsers := w2,
                  activeRooms := alSet s.activeRooms newRoomId roomData,
                  tokenToUser := tokens1 },
         [Emit.to initiatorSocketId
            (Msg.roomAssigned newRoomId true "initiator" roles.2),
          Emit.to responderSocketId
            (Msg.roomAssigned newRoomId false "responder" roles.1)])
    | (q1, w1, none) =>
        ({ s with
             waitingUsers := alSet w1 userId
               { socketId := socketId, audioEnabled := audioEnabled,
                 videoEnabled := videoEnabled, joinTime := now, token := token },
             queue := q1 ++ [userId] }, [])

/-- The `join_room` handler (server.js 224-241). -/
def joinRoomOp (userId socketId : String) (roomToJoin : String)
    (s : ServerState) : ServerState × List Emit :=
  match alGet s.activeRooms roomToJoin with
  | none => (s, [Emit.to socketId (Msg.joinFailed "no_room")])
  | some room =>
      if room.user1.id ≠ userId ∧ room.user2.id ≠ userId then
        (s, [Emit.to socketId (Msg.joinFailed "not_authorized")])
      else
        let isUser1 := room.user1.id = userId
        let room1 := rebindMemberSockets userId socketId room
        ({ s with activeRooms := alSet s.activeRooms roomToJoin room1 },
         [Emit.to socketId
            (Msg.roomJoined roomToJoin
              (if isUser1 then room.user1.initiator else room.user2.initiator)
              (if (if isUser1 then room.user1.initiator else room.user2.initiator)
                 then "initiator" else "responder")
              (if isUser1 then room.user2.id else room.user1.id))])

/-- The `skip` handler (server.js 244-260). -/
def skipOp (userId : String) (s : ServerState) : ServerState × List Emit :=
  match s.activeRooms.find? (fun p =>
      p.2.user1.id == userId || p.2.user2.id == userId) with
  | some (roomId, roomData) =>
      let otherUser :=
        if roomData.user1.id = userId then roomData.user2 else roomData.user1
      let emits :=
        if s.liveSockets.contains otherUser.socketId then
          [Emit.to otherUser.socketId Msg.partnerSkipped]
        else []
      let tokens1 := s.tokenToUser.map (fun p =>
        (p.1, if p.2.userId = userId ∨ p.2.userId = otherUser.id then
                { p.2 with roomId := none }
              else p.2))
      ({ s with activeRooms := alDel s.activeRooms roomId,
                tokenToUser := tokens1 }, emits)
  | none => (cleanupUserFromWaiting userId s, [])

/-- The new-user branch of the connection handler (server.js 138-150):
mint identity and token, count the user, broadcast the count, greet. -/
def freshConnection (socketId freshUserId freshToken : String)
    (s0 : ServerState) : ServerState × List Emit :=
  let s1 := { s0 with
    tokenToUser := alSet s0.tokenToUser freshToken
      { userId := freshUserId, socketId := some socketId, roomId := none,
        cleanupTimer := false, lastSeen := none },
    userConnections := alSet s0.userConnections freshUserId socketId,
    userCount := s0.userCount + 1 }
  (s1, [Emit.broadcast (Msg.userCountMsg s1.userCount),
        Emit.to socketId (Msg.welcome freshUserId freshToken)])

/-- The connection handler (server.js 114-150): the socket registers as
live, then either rebinds an existing token presented in the handshake
auth (server.js 118-137) or mints a fresh identity (server.js 138-150).
`freshUserId`/`freshToken` stand for the generated values used only on
the fresh branch. -/
def handleConnection (socketId : String) (clientToken : Option String)
    (freshUserId freshToken : String) (s : ServerState) :
    ServerState × List Emit :=
  let s0 := { s with liveSockets := socketId :: s.liveSockets }
  match clientToken with
  | some t =>
      if t ≠ "" ∧ alHas s0.tokenToUser t then
        match alGet s0.tokenToUser t with
        | none => (s0, [])
        | some entry =>
            let userId := entry.userId
            let tok1 := alSet s0.tokenToUser t { entry with socketId := some socketId }
            let s1 := { s0 with tokenToUser := tok1 }
            let s2 := cancelTokenCleanup t s1
            let s3 := { s2 with userConnections := alSet s2.userConnections userId socketId }
            let e1 := [Emit.to socketId (Msg.reconnectSuccess entry.roomId userId)]
            match entry.roomId with
            | some rid =>
                (match alGet s3.activeRooms rid with
                 | some room =>
                     let room1 := rebindMemberSockets userId socketId room
                     let partner :=
                       if room1.user1.id = userId then room1.user2 else room1.user1
                     let s4 := { s3 with activeRooms := alSet s3.activeRooms rid room1 }
                     (s4, e1 ++
                       (if s4.liveSockets.contains partner.socketId then
                          [Emit.to partner.socketId
                             (Msg.partnerReconnected rid userId)]
                        else []))
                 | none => (s3, e1))
            | none => (s3, e1)
      else
        freshConnection socketId freshUserId freshToken s0
  | none => freshConnection socketId freshUserId freshToken s0

/-- The `reconnect_user` handler (server.js 153-174).  Note: unlike the
handshake-attach branch, it does not touch the room record. -/
def reconnectUserOp (socketId : String) (dataToken : Option String)
    (s : ServerState) : ServerState × List Emit :=
  match dataToken with
  | none => (s, [Emit.to socketId Msg.reconnectFailed])
  | some t =>
      if t = "" then (s, [Emit.to socketId Msg.reconnectFailed])
      else
        match alGet s.tokenToUser t with
        | none => (s, [Emit.to socketId Msg.reconnectFailed])
        | some entry =>
            if entry.userId = "" then (s, [Emit.to socketId Msg.reconnectFailed])
            else
              let tok1 := alSet s.tokenToUser t { entry with socketId := some socketId }
              let s1 := { s with tokenToUser := tok1 }
              let s2 := { s1 with userConnections := alSet s1.userConnections entry.userId socketId }
              let s3 := cancelTokenCleanup t s2
              let e1 := [Emit.to socketId
                (Msg.reconnectSuccess entry.roomId entry.userId)]
              match entry.roomId with
              | some rid =>
                  (match alGet s3.activeRooms rid with
                   | some room =>
                       let partner :=
                         if room.user1.id = entry.userId then room.user2
                         else room.user1
                       (s3, e1 ++
                         (if s3.liveSockets.contains partner.socketId then
                            [Emit.to partner.socketId
                               (Msg.partnerReconnected rid entry.userId)]
                          else []))
                   | none => (s3, e1))
              | none => (s3, e1)

/-- The `disconnect` handler (server.js 319-345): the socket leaves the
live set; the first token bound to the user is detached (socket cleared,
`lastSeen` stamped, reaper armed); the partner of the first room holding
the user is notified if attached (the room reaper the code also arms is
the separate transition `cleanupRoomIfBothDisconnected`); the user is
removed from the waiting structures; `userCount` is NOT decremented and
the unchanged count is broadcast. -/
def handleDisconnect (userId socketId : String) (now : Nat)
    (s : ServerState) : ServerState × List Emit :=
  let s0 := { s with liveSockets := s.liveSockets.erase socketId }
  let s1 :=
    match s0.tokenToUser.find? (fun p => p.2.userId == userId) with
    | some (t, e) =>
        let tok1 := alSet s0.tokenToUser t { e with socketId := none, lastSeen := some now }
        scheduleTokenCleanup t { s0 with tokenToUser := tok1 }
    | none => s0
  let roomEmits :=
    match s1.activeRooms.find? (fun p =>
        p.2.user1.id == userId || p.2.user2.id == userId) with
    | some (roomId, room) =>
        let other :=
          if room.user1.id = userId then room.user2 else room.user1
        if s1.liveSockets.contains other.socketId then
          [Emit.to other.socketId (Msg.partnerDisconnected roomId userId)]
        else []
    | none => []
  let s2 := cleanupUserFromWaiting userId s1
  (s2, roomEmits ++ [Emit.broadcast (Msg.userCountMsg s2.userCount)])

/-- `cleanupRoomIfBothDisconnected` (server.js 62-75): the body of the
room reaper armed by the disconnect handler. -/
def cleanupRoomIfBothDisconnected (roomId : String) (s : ServerState) :
    ServerState :=
  match alGet s.activeRooms roomId with
  | none => s
  | some room =>
      if ¬ s.liveSockets.contains room.user1.socketId ∧
         ¬ s.liveSockets.contains room.user2.socketId then
        { s with activeRooms := alDel s.activeRooms roomId,
                 tokenToUser := s.tokenToUser.map (fun p =>
                   (p.1, if p.2.userId = room.user1.id ∨
                            p.2.userId = room.user2.id then
                           { p.2 with roomId := none }
                         else p.2)) }
      else s

/-- The periodic `setInterval` task of the socket.io server
(server.js 348-351).  Its body is a single `console.log` of the store
sizes: it deletes nothing, so it is the identity on the state. -/
def statusTick (s : ServerState) : ServerState := s

/-- The periodic cleanup task of the queue-variant server
(src/unnamed/part_004, lines 734-754): delete every room with
`now - created > 10 * 60 * 1000`, then log. -/
def cleanupOldRoomsTick (now : Nat) (s : ServerState) : ServerState :=
  { s with activeRooms :=
      s.activeRooms.filter (fun p => ¬ (10 * 60 * 1000 < now - p.2.created)) }

/-! ### Association-list lemmas -/

theorem alGet_nil {α : Type} (k : String) : alGet ([] : List (String × α)) k = none := rfl

theorem alGet_cons {α : Type} (p : String × α) (m : List (String × α)) (k : String) :
    alGet (p :: m) k = if p.1 = k then some p.2 else alGet m k := by
  by_cases h : p.1 = k
  · simp [alGet, List.find?, h]
  · simp only [alGet, List.find?, beq_eq_false_iff_ne.mpr h, if_neg h]

theorem alGet_alSet_self {α : Type} (m : List (String × α)) (k : String) (v : α) :
    alGet (alSet m k v) k = some v := by
  induction m with
  | nil => simp [alSet, alGet_cons]
  | cons p rest ih =>
      by_cases h : p.1 = k <;> simp [alSet, h, alGet_cons, ih]

theorem alGet_alSet_ne {α : Type} (m : List (String × α)) (k k' : String) (v : α)
    (h : k' ≠ k) : alGet (alSet m k v) k' = alGet m k' := by
  have hkk : ¬ (k = k') := fun hh => h hh.symm
  induction m with
  | nil =>
      show alGet [(k, v)] k' = alGet [] k'
      rw [alGet_cons, if_neg hkk]
  | cons p rest ih =>
      by_cases hp : p.1 = k
      · simp only [alSet, if_pos hp, alGet_cons, if_neg hkk]
        rw [if_neg (by rw [hp]; exact hkk)]
      · simp only [alSet, if_neg hp, alGet_cons, ih]

theorem mem_alSet {α : Type} {m : List (String × α)} {k : String} {v : α}
    {p : String × α} (h : p ∈ alSet m k v) : p = (k, v) ∨ p ∈ m := by
  induction m with
  | nil => simpa [alSet] using h
  | cons q rest ih =>
      by_cases hq : q.1 = k
      · simp only [alSet, hq, if_pos rfl] at h
        rcases List.mem_cons.mp h with h | h
        · exact Or.inl h
        · exact Or.inr (List.mem_cons_of_mem _ h)
      · simp only [alSet, hq, if_neg hq] at h
        rcases List.mem_cons.mp h with h | h
        · exact Or.inr (h ▸ List.mem_cons_self _ _)
        · rcases ih h with h | h
          · exact Or.inl h
          · exact Or.inr (List.mem_cons_of_mem _ h)

theorem mem_alDel {α : Type} {m : List (String × α)} {k : String}
    {p : String × α} (h : p ∈ alDel m k) : p ∈ m :=
  List.mem_of_mem_filter h

theorem alGet_alDel_self {α : Type} (m : List (String × α)) (k : String) :
    alGet (alDel m k) k = none := by
  induction m with
  | nil => rfl
  | cons p rest ih =>
      by_cases h : p.1 = k
      · simpa [alDel, List.filter_cons, h] using ih
      · simp only [alDel, List.filter_cons] at ih ⊢
        simpa [h, alGet_cons] using ih

theorem alGet_alDel_ne {α : Type} (m : List (String × α)) (k k' : String)
    (h : k' ≠ k) : alGet (alDel m k) k' = alGet m k' := by
  induction m with
  | nil => rfl
  | cons p rest ih =>
      simp only [alDel, List.filter_cons] at ih ⊢
      by_cases hp : p.1 = k
      · have hk' : ¬ (k = k') := fun hh => h hh.symm
        simpa [hp, alGet_cons, hk'] using ih
      · have hfil : (!decide (p.1 = k)) = true := by simp [hp]
        simp only [decide_not] at ih ⊢
        rw [if_pos hfil, alGet_cons, alGet_cons]
        by_cases hp' : p.1 = k'
        · rw [if_pos hp', if_pos hp']
        · rw [if_neg hp', if_neg hp']
          exact ih

theorem alGet_map_val {α : Type} (f : α → α) (m : List (String × α)) (k : String) :
    alGet (m.map (fun p => (p.1, f p.2))) k = (alGet m k).map f := by
  induction m with
  | nil => rfl
  | cons p rest ih =>
      by_cases h : p.1 = k <;> simp [alGet_cons, h, ih]

theorem alGet_map_setRoom (a b : String) (r : Option String)
    (m : List (String × TokenEntry)) (k : String) :
    alGet (m.map (fun p =>
        (p.1, if p.2.userId = a ∨ p.2.userId = b then
                { p.2 with roomId := r } else p.2))) k =
      (alGet m k).map (fun e =>
        if e.userId = a ∨ e.userId = b then { e with roomId := r } else e) := by
  induction m with
  | nil => rfl
  | cons p rest ih =>
      rw [List.map_cons, alGet_cons, alGet_cons]
      by_cases hp : p.1 = k
      · rw [if_pos hp, if_pos hp]
        rfl
      · rw [if_neg hp, if_neg hp, ih]

theorem alGet_mem {α : Type} {m : List (String × α)} {k : String} {v : α}
    (h : alGet m k = some v) : (k, v) ∈ m := by
  induction m with
  | nil => simp [alGet] at h
  | cons p rest ih =>
      obtain ⟨p1, p2⟩ := p
      rw [alGet_cons] at h
      by_cases hp : p1 = k
      · rw [if_pos hp] at h
        have hv : p2 = v := by injection h
        subst hp
        subst hv
        exact List.mem_cons_self _ _
      · rw [if_neg hp] at h
        exact List.mem_cons_of_mem _ (ih h)

theorem alDel_of_alGet_none {α : Type} (m : List (String × α)) (k : String)
    (h : alGet m k = none) : alDel m k = m := by
  induction m with
  | nil => rfl
  | cons p rest ih =>
      rw [alGet_cons] at h
      by_cases hp : p.1 = k
      · simp [hp] at h
      · simp only [if_neg hp] at h
        simp [alDel, hp] at ih ⊢
        exact ih h

/-! ### Field-preservation facts for the state helpers -/

theorem cancelTokenCleanup_activeRooms (t : String) (s : ServerState) :
    (cancelTokenCleanup t s).activeRooms = s.activeRooms := by
  unfold cancelTokenCleanup
  split <;> try rfl
  split <;> rfl

theorem cancelTokenCleanup_userCount (t : String) (s : ServerState) :
    (cancelTokenCleanup t s).userCount = s.userCount := by
  unfold cancelTokenCleanup
  split <;> try rfl
  split <;> rfl

theorem cancelTokenCleanup_liveSockets (t : String) (s : ServerState) :
    (cancelTokenCleanup t s).liveSockets = s.liveSockets := by
  unfold cancelTokenCleanup
  split <;> try rfl
  split <;> rfl

theorem scheduleTokenCleanup_activeRooms (t : String) (s : ServerState) :
    (scheduleTokenCleanup t s).activeRooms = s.activeRooms := by
  unfold scheduleTokenCleanup
  split <;> try rfl
  split <;> rfl

theorem scheduleTokenCleanup_userCount (t : String) (s : ServerState) :
    (scheduleTokenCleanup t s).userCount = s.userCount := by
  unfold scheduleTokenCleanup
  split <;> try rfl
  split <;> rfl

theorem scheduleTokenCleanup_queue (t : String) (s : ServerState) :
    (scheduleTokenCleanup t s).queue = s.queue := by
  unfold scheduleTokenCleanup
  split <;> try rfl
  split <;> rfl

theorem scheduleTokenCleanup_waitingUsers (t : String) (s : ServerState) :
    (scheduleTokenCleanup t s).waitingUsers = s.waitingUsers := by
  unfold scheduleTokenCleanup
  split <;> try rfl
  split <;> rfl

theorem fireTokenCleanup_activeRooms (t : String) (s : ServerState) :
    (fireTokenCleanup t s).activeRooms = s.activeRooms := by
  unfold fireTokenCleanup
  split <;> try rfl
  split <;> rfl

theorem fireTokenCleanup_userCount (t : String) (s : ServerState) :
    (fireTokenCleanup t s).userCount = s.userCount := by
  unfold fireTokenCleanup
  split <;> try rfl
  split <;> rfl

theorem rebindMemberSockets_flags (u sid : String) (room : Room) :
    (rebindMemberSockets u sid room).user1.initiator = room.user1.initiator ∧
    (rebindMemberSockets u sid room).user2.initiator = room.user2.initiator := by
  unfold rebindMemberSockets
  dsimp only
  split <;> split <;> simp

theorem rebindMemberSockets_ids (u sid : String) (room : Room) :
    (rebindMemberSockets u sid room).user1.id = room.user1.id ∧
    (rebindMemberSockets u sid room).user2.id = room.user2.id := by
  unfold rebindMemberSockets
  dsimp only
  split <;> split <;> simp

/-! ### How each operation can change `activeRooms` -/

theorem handleConnection_rooms (sid : String) (ct : Option String) (fu ft : String)
    (s : ServerState) :
    (handleConnection sid ct fu ft s).1.activeRooms = s.activeRooms ∨
    ∃ uid rid room, alGet s.activeRooms rid = some room ∧
      (handleConnection sid ct fu ft s).1.activeRooms =
        alSet s.activeRooms rid (rebindMemberSockets uid sid room) := by
  cases ct with
  | none => left; rfl
  | some t =>
      by_cases hc : t ≠ "" ∧
          alHas { s with liveSockets := sid :: s.liveSockets }.tokenToUser t
      · rcases hg : alGet { s with liveSockets := sid :: s.liveSockets }.tokenToUser t
          with _ | entry
        · left
          simp [handleConnection, hc, hg]
        · rcases hr : entry.roomId with _ | rid
          · left
            simp [handleConnection, hc, hg, hr, cancelTokenCleanup_activeRooms]
          · rcases hroom : alGet s.activeRooms rid with _ | room
            · left
              simp [handleConnection, hc, hg, hr, cancelTokenCleanup_activeRooms, hroom]
            · right
              refine ⟨entry.userId, rid, room, hroom, ?_⟩
              simp [handleConnection, hc, hg, hr, cancelTokenCleanup_activeRooms, hroom]
      · left
        simp [handleConnection, hc, freshConnection]

theorem reconnectUserOp_rooms (sid : String) (dt : Option String) (s : ServerState) :
    (reconnectUserOp sid dt s).1.activeRooms = s.activeRooms := by
  cases dt with
  | none => rfl
  | some t =>
      by_cases ht : t = ""
      · simp [reconnectUserOp, ht]
      · rcases hg : alGet s.tokenToUser t with _ | entry
        · simp [reconnectUserOp, ht, hg]
        · by_cases hu : entry.userId = ""
          · simp [reconnectUserOp, ht, hg, hu]
          · rcases hr : entry.roomId with _ | rid
            · simp [reconnectUserOp, ht, hg, hu, hr, cancelTokenCleanup_activeRooms]
            · rcases hroom : alGet s.activeRooms rid with _ | room <;>
                simp [reconnectUserOp, ht, hg, hu, hr,
                      cancelTokenCleanup_activeRooms, hroom]

theorem findPartnerOp_rooms (u sid tok : String) (a v : Bool) (now : Nat)
    (rid : String) (s : ServerState) :
    (findPartnerOp u sid tok a v now rid s).1.activeRooms = s.activeRooms ∨
    ∃ room : Room, room.user1.initiator = true ∧ room.user2.initiator = false ∧
      (findPartnerOp u sid tok a v now rid s).1.activeRooms =
        alSet s.activeRooms rid room := by
  by_cases h1 : userInRoom u s.activeRooms
  · left; simp [findPartnerOp, h1]
  · by_cases h2 : alHas s.waitingUsers u
    · left; simp [findPartnerOp, h1, h2]
    · rcases hp : popCandidateFromQueue u s.liveSockets s.queue s.waitingUsers
        with ⟨q1, w1, _ | ⟨c, d⟩⟩
      · left; simp [findPartnerOp, h1, h2, hp]
      · right
        refine ⟨{ user1 := { id := (determineInitiator u now c d.joinTime).1,
                             socketId := if (determineInitiator u now c d.joinTime).1 = u
                                         then sid else d.socketId,
                             initiator := true },
                  user2 := { id := (determineInitiator u now c d.joinTime).2,
                             socketId := if (determineInitiator u now c d.joinTime).2 = u
                                         then sid else d.socketId,
                             initiator := false },
                  created := now }, rfl, rfl, ?_⟩
        simp [findPartnerOp, h1, h2, hp]

theorem joinRoomOp_rooms (u sid rid : String) (s : ServerState) :
    (joinRoomOp u sid rid s).1.activeRooms = s.activeRooms ∨
    ∃ room, alGet s.activeRooms rid = some room ∧
      (joinRoomOp u sid rid s).1.activeRooms =
        alSet s.activeRooms rid (rebindMemberSockets u sid room) := by
  rcases hg : alGet s.activeRooms rid with _ | room
  · left; simp [joinRoomOp, hg]
  · by_cases hm : room.user1.id ≠ u ∧ room.user2.id ≠ u
    · left; simp [joinRoomOp, hg, hm]
    · right
      refine ⟨room, ?_, ?_⟩
      · exact hg ▸ rfl
      · simp [joinRoomOp, hg, hm]

theorem skipOp_rooms (u : String) (s : ServerState) :
    (skipOp u s).1.activeRooms = s.activeRooms ∨
    ∃ rid, (skipOp u s).1.activeRooms = alDel s.activeRooms rid := by
  rcases hf : s.activeRooms.find? (fun p =>
      p.2.user1.id == u || p.2.user2.id == u) with _ | ⟨rid, room⟩
  · left; simp [skipOp, hf, cleanupUserFromWaiting]
  · right
    exact ⟨rid, by simp [skipOp, hf]⟩

theorem handleDisconnect_rooms (u sid : String) (now : Nat) (s : ServerState) :
    (handleDisconnect u sid now s).1.activeRooms = s.activeRooms := by
  unfold handleDisconnect
  dsimp only
  rcases hf : s.tokenToUser.find?
      (fun p : String × TokenEntry => p.2.userId == u) with _ | ⟨t, e⟩ <;>
    simp [hf, cleanupUserFromWaiting, scheduleTokenCleanup_activeRooms]

theorem cleanupRoomIfBothDisconnected_rooms (rid : String) (s : ServerState) :
    (cleanupRoomIfBothDisconnected rid s).activeRooms = s.activeRooms ∨
    (cleanupRoomIfBothDisconnected rid s).activeRooms = alDel s.activeRooms rid := by
  unfold cleanupRoomIfBothDisconnected
  rcases hg : alGet s.activeRooms rid with _ | room
  · left; rfl
  · dsimp only
    split
    · right; rfl
    · left; rfl

/-! ### Registry operations as a transition relation -/

/-- One registry operation of the socket.io server: every state-mutating
handler and timer body (the signaling relays `offer` / `answer` /
`ice-candidate` / `request_reoffer` only emit and never touch the
stores, so they do not appear).  Generated ids, timestamps and socket
ids are arbitrary parameters. -/
inductive Step : ServerState → ServerState → Prop where
  | connect (s : ServerState) (sid : String) (ct : Option String) (fu ft : String) :
      Step s (handleConnection sid ct fu ft s).1
  | reconnect (s : ServerState) (sid : String) (dt : Option String) :
      Step s (reconnectUserOp sid dt s).1
  | findPartner (s : ServerState) (u sid tok : String) (a v : Bool)
      (now : Nat) (rid : String) :
      Step s (findPartnerOp u sid tok a v now rid s).1
  | joinRoom (s : ServerState) (u sid rid : String) :
      Step s (joinRoomOp u sid rid s).1
  | skip (s : ServerState) (u : String) :
      Step s (skipOp u s).1
  | disconnect (s : ServerState) (u sid : String) (now : Nat) :
      Step s (handleDisconnect u sid now s).1
  | tokenReaper (s : ServerState) (t : String) :
      Step s (fireTokenCleanup t s)
  | roomReaper (s : ServerState) (rid : String) :
      Step s (cleanupRoomIfBothDisconnected rid s)
  | status (s : ServerState) :
      Step s (statusTick s)

/-- States reachable from the empty boot state by registry operations. -/
def Reachable (s : ServerState) : Prop :=
  Relation.ReflTransGen Step initState s

/-- Every room on file has `user1` flagged initiator and `user2` not. -/
def RoomsWF (s : ServerState) : Prop :=
  ∀ p ∈ s.activeRooms, p.2.user1.initiator = true ∧ p.2.user2.initiator = false

theorem roomsWF_of_eq {s s' : ServerState}
    (h : s'.activeRooms = s.activeRooms) (hs : RoomsWF s) : RoomsWF s' := by
  intro p hp
  exact hs p (h ▸ hp)

theorem roomsWF_alSet {s s' : ServerState} {rid : String} {room : Room}
    (h : s'.activeRooms = alSet s.activeRooms rid room)
    (hroom : room.user1.initiator = true ∧ room.user2.initiator = false)
    (hs : RoomsWF s) : RoomsWF s' := by
  intro p hp
  rw [h] at hp
  rcases mem_alSet hp with rfl | hp
  · exact hroom
  · exact hs p hp

theorem step_preserves_roomsWF {s s' : ServerState}
    (hstep : Step s s') (hs : RoomsWF s) : RoomsWF s' := by
  cases hstep with
  | connect sid ct fu ft =>
      rcases handleConnection_rooms sid ct fu ft s with h | ⟨uid, rid, room, hroom, h⟩
      · exact roomsWF_of_eq h hs
      · refine roomsWF_alSet h ?_ hs
        have hflags := rebindMemberSockets_flags uid sid room
        have hsrc := hs (rid, room) (alGet_mem hroom)
        exact ⟨hflags.1.trans hsrc.1, hflags.2.trans hsrc.2⟩
  | reconnect sid dt =>
      exact roomsWF_of_eq (reconnectUserOp_rooms sid dt s) hs
  | findPartner u sid tok a v now rid =>
      rcases findPartnerOp_rooms u sid tok a v now rid s with h | ⟨room, h1, h2, h⟩
      · exact roomsWF_of_eq h hs
      · exact roomsWF_alSet h ⟨h1, h2⟩ hs
  | joinRoom u sid rid =>
      rcases joinRoomOp_rooms u sid rid s with h | ⟨room, hroom, h⟩
      · exact roomsWF_of_eq h hs
      · refine roomsWF_alSet h ?_ hs
        have hflags := rebindMemberSockets_flags u sid room
        have hsrc := hs (rid, room) (alGet_mem hroom)
        exact ⟨hflags.1.trans hsrc.1, hflags.2.trans hsrc.2⟩
  | skip u =>
      rcases skipOp_rooms u s with h | ⟨rid, h⟩
      · exact roomsWF_of_eq h hs
      · intro p hp
        rw [h] at hp
        exact hs p (mem_alDel hp)
  | disconnect u sid now =>
      exact roomsWF_of_eq (handleDisconnect_rooms u sid now s) hs
  | tokenReaper t =>
      exact roomsWF_of_eq (fireTokenCleanup_activeRooms t s) hs
  | roomReaper rid =>
      rcases cleanupRoomIfBothDisconnected_rooms rid s with h | h
      · exact roomsWF_of_eq h hs
      · intro p hp
        rw [h] at hp
        exact hs p (mem_alDel hp)
  | status =>
      exact hs

theorem reachable_roomsWF {s : ServerState} (h : Reachable s) : RoomsWF s := by
  induction h with
  | refl =>
      intro p hp
      simp [initState] at hp
  | tail _ hstep ih => exact step_preserves_roomsWF hstep ih

/-! ### Demo trace: A connects, B connects, A enqueues, B pairs with A -/

def demoS1 : ServerState := (handleConnection "sA" none "A" "tA" initState).1

def demoS2 : ServerState := (handleConnection "sB" none "B" "tB" demoS1).1

def demoS3 : ServerState := (findPartnerOp "A" "sA" "tA" true true 1 "rDemo" demoS2).1

def demoS4 : ServerState := (findPartnerOp "B" "sB" "tB" true true 2 "r1" demoS3).1

theorem demoS4_reachable : Reachable demoS4 :=
  Relation.ReflTransGen.tail
    (Relation.ReflTransGen.tail
      (Relation.ReflTransGen.tail
        (Relation.ReflTransGen.tail Relation.ReflTransGen.refl
          (Step.connect initState "sA" none "A" "tA"))
        (Step.connect demoS1 "sB" none "B" "tB"))
      (Step.findPartner demoS2 "A" "sA" "tA" true true 1 "rDemo"))
    (Step.findPartner demoS3 "B" "sB" "tB" true true 2 "r1")

/-- **C1.** In every state reachable by registry operations, every room
in `activeRooms` has exactly one member flagged initiator
(`user1.initiator XOR user2.initiator`); moreover the pairing step of
`find_partner` always builds the new room with `user1.initiator = true`
and `user2.initiator = false`. -/
theorem c1_room_initiator_xor :
    (∀ s : ServerState, Reachable s → ∀ p ∈ s.activeRooms,
        xor p.2.user1.initiator p.2.user2.initiator = true) ∧
    (∀ (s : ServerState) (u sid tok : String) (a v : Bool) (now : Nat)
        (rid : String) (q1 : List String) (w1 : List (String × WaitingEntry))
        (c : String) (d : WaitingEntry),
        userInRoom u s.activeRooms = false →
        alHas s.waitingUsers u = false →
        popCandidateFromQueue u s.liveSockets s.queue s.waitingUsers =
          (q1, w1, some (c, d)) →
        ∃ room, alGet (findPartnerOp u sid tok a v now rid s).1.activeRooms rid =
            some room ∧
          room.user1.initiator = true ∧ room.user2.initiator = false) := by
  constructor
  · intro s hs p hp
    have h := reachable_roomsWF hs p hp
    rw [h.1, h.2]
    rfl
  · intro s u sid tok a v now rid q1 w1 c d h1 h2 hp
    simp only [findPartnerOp, h1, h2, hp, Bool.false_eq_true, if_false]
    exact ⟨_, alGet_alSet_self .., rfl, rfl⟩

/-- Witness for C1 at the concrete demo trace. -/
theorem c1_room_initiator_xor_witness :
    (∀ p ∈ demoS4.activeRooms, xor p.2.user1.initiator p.2.user2.initiator = true) ∧
    (∃ room, alGet demoS4.activeRooms "r1" = some room ∧
        room.user1.initiator = true ∧ room.user2.initiator = false) := by
  constructor
  · exact c1_room_initiator_xor.1 demoS4 demoS4_reachable
  · exact c1_room_initiator_xor.2 demoS3 "B" "sB" "tB" true true 2 "r1" []
      demoS3.waitingUsers "A" ⟨"sA", true, true, 1, "tA"⟩
      (by decide) (by decide) (by decide)

/-- **C2.** Role assignment is deterministic: `determineInitiator` makes
the user with the strictly earlier `joinTime` the initiator, breaking
ties by the lexicographically smaller user id; and at the pairing site
the requester is stamped with the current time while the popped waiter
keeps its enqueue time, so the already-waiting user ends up as the
room's initiator (`user1`) whenever it enqueued strictly earlier. -/
theorem c2_role_assignment :
    (∀ (a : String) (aj : Nat) (b : String) (bj : Nat),
        (aj < bj → determineInitiator a aj b bj = (a, b)) ∧
        (bj < aj → determineInitiator a aj b bj = (b, a)) ∧
        (aj = bj → strLt a b = true → determineInitiator a aj b bj = (a, b)) ∧
        (aj = bj → strLt a b = false → determineInitiator a aj b bj = (b, a))) ∧
    (∀ (s : ServerState) (u sid tok : String) (a v : Bool) (now : Nat)
        (rid : String) (q1 : List String) (w1 : List (String × WaitingEntry))
        (c : String) (d : WaitingEntry),
        userInRoom u s.activeRooms = false →
        alHas s.waitingUsers u = false →
        popCandidateFromQueue u s.liveSockets s.queue s.waitingUsers =
          (q1, w1, some (c, d)) →
        d.joinTime < now →
        ∃ room, alGet (findPartnerOp u sid tok a v now rid s).1.activeRooms rid =
            some room ∧
          room.user1.id = c ∧ room.user1.initiator = true ∧ room.user2.id = u) := by
  constructor
  · intro a aj b bj
    refine ⟨?_, ?_, ?_, ?_⟩
    · intro h
      simp [determineInitiator, h]
    · intro h
      have h' : ¬ aj < bj := by omega
      simp [determineInitiator, h, h']
    · intro h hlt
      subst h
      simp [determineInitiator, hlt]
    · intro h hlt
      subst h
      simp [determineInitiator, hlt]
  · intro s u sid tok a v now rid q1 w1 c d h1 h2 hp hlt
    have hroles : determineInitiator u now c d.joinTime = (c, u) := by
      unfold determineInitiator
      rw [if_neg (by omega), if_pos hlt]
    simp only [findPartnerOp, h1, h2, hp, Bool.false_eq_true, if_false, hroles]
    exact ⟨_, alGet_alSet_self .., rfl, rfl, rfl⟩

/-- Witness for C2: each branch at a concrete input, and the pairing
site of the demo trace, where `A` enqueued at time 1 and `B` requested
at time 2, making `A` the initiator. -/
theorem c2_role_assignment_witness :
    determineInitiator "a" 1 "b" 2 = ("a", "b") ∧
    determineInitiator "a" 5 "b" 2 = ("b", "a") ∧
    determineInitiator "a" 3 "b" 3 = ("a", "b") ∧
    determineInitiator "b" 3 "a" 3 = ("a", "b") ∧
    (∃ room, alGet demoS4.activeRooms "r1" = some room ∧
        room.user1.id = "A" ∧ room.user1.initiator = true ∧
        room.user2.id = "B") := by
  refine ⟨?_, ?_, ?_, ?_, ?_⟩
  · exact (c2_role_assignment.1 "a" 1 "b" 2).1 (by decide)
  · exact (c2_role_assignment.1 "a" 5 "b" 2).2.1 (by decide)
  · exact (c2_role_assignment.1 "a" 3 "b" 3).2.2.1 rfl (by decide)
  · exact (c2_role_assignment.1 "b" 3 "a" 3).2.2.2 rfl (by decide)
  · exact c2_role_assignment.2 demoS3 "B" "sB" "tB" true true 2 "r1" []
      demoS3.waitingUsers "A" ⟨"sA", true, true, 1, "tA"⟩
      (by decide) (by decide) (by decide) (by decide)

/-! ### Characterizing the pop loop of `find_partner` -/

/-- During one pop loop the waiting map only loses entries, and only
entries whose socket is dead. -/
def WaitShrink (live : List String)
    (w w1 : List (String × WaitingEntry)) : Prop :=
  ∀ y, alGet w1 y = alGet w y ∨
    (alGet w1 y = none ∧
      ∃ d, alGet w y = some d ∧ live.contains d.socketId = false)

/-- A queue entry the pop loop may drop: a falsy id, the requester, an
id no longer in the waiting map, or an id whose socket is dead (in which
case the loop also removed it from the waiting map). -/
def SkippedOut (u : String) (live : List String)
    (w w1 : List (String × WaitingEntry)) (x : String) : Prop :=
  x = "" ∨ x = u ∨ alGet w x = none ∨
    ∃ d, alGet w x = some d ∧ live.contains d.socketId = false ∧
      alGet w1 x = none

theorem popCandidate_spec (u : String) (live : List String) :
    ∀ (q : List String) (w : List (String × WaitingEntry)),
      WaitShrink live w (popCandidateFromQueue u live q w).2.1 ∧
      ((popCandidateFromQueue u live q w).2.2 = none →
        (popCandidateFromQueue u live q w).1 = [] ∧
        ∀ x ∈ q, SkippedOut u live w (popCandidateFromQueue u live q w).2.1 x) ∧
      (∀ c d, (popCandidateFromQueue u live q w).2.2 = some (c, d) →
        c ≠ "" ∧ c ≠ u ∧ alGet w c = some d ∧
        alGet (popCandidateFromQueue u live q w).2.1 c = some d ∧
        live.contains d.socketId = true ∧
        (popCandidateFromQueue u live q w).1.length < q.length ∧
        ∃ pre, q = pre ++ c :: (popCandidateFromQueue u live q w).1 ∧
          ∀ x ∈ pre, SkippedOut u live w (popCandidateFromQueue u live q w).2.1 x) := by
  intro q
  induction q with
  | nil =>
      intro w
      refine ⟨fun y => Or.inl rfl, fun _ => ⟨rfl, by simp⟩, ?_⟩
      intro c d h
      simp [popCandidateFromQueue] at h
  | cons cand rest ih =>
      intro w
      by_cases hskip : cand = "" ∨ cand = u
      · have hred : popCandidateFromQueue u live (cand :: rest) w =
            popCandidateFromQueue u live rest w := by
          simp [popCandidateFromQueue, hskip]
        obtain ⟨ihA, ihB, ihC⟩ := ih w
        rw [hred]
        refine ⟨ihA, ?_, ?_⟩
        · intro hres
          obtain ⟨hq, hall⟩ := ihB hres
          refine ⟨hq, ?_⟩
          intro x hx
          rcases List.mem_cons.mp hx with rfl | hx
          · rcases hskip with h | h
            · exact Or.inl h
            · exact Or.inr (Or.inl h)
          · exact hall x hx
        · intro c d hres
          obtain ⟨h1, h2, h3, h4, h5, hlen, pre, hpre, hall⟩ := ihC c d hres
          refine ⟨h1, h2, h3, h4, h5, Nat.lt_succ_of_lt hlen,
            cand :: pre, congrArg (cand :: ·) hpre, ?_⟩
          intro x hx
          rcases List.mem_cons.mp hx with rfl | hx
          · rcases hskip with h | h
            · exact Or.inl h
            · exact Or.inr (Or.inl h)
          · exact hall x hx
      · have hne : cand ≠ "" ∧ cand ≠ u := by
          constructor <;> intro h <;> exact hskip (by simp [h])
        rcases hg : alGet w cand with _ | cd
        · have hred : popCandidateFromQueue u live (cand :: rest) w =
              popCandidateFromQueue u live rest w := by
            simp [popCandidateFromQueue, hskip, hg]
          obtain ⟨ihA, ihB, ihC⟩ := ih w
          rw [hred]
          refine ⟨ihA, ?_, ?_⟩
          · intro hres
            obtain ⟨hq, hall⟩ := ihB hres
            refine ⟨hq, ?_⟩
            intro x hx
            rcases List.mem_cons.mp hx with rfl | hx
            · exact Or.inr (Or.inr (Or.inl hg))
            · exact hall x hx
          · intro c d hres
            obtain ⟨h1, h2, h3, h4, h5, hlen, pre, hpre, hall⟩ := ihC c d hres
            refine ⟨h1, h2, h3, h4, h5, Nat.lt_succ_of_lt hlen,
              cand :: pre, congrArg (cand :: ·) hpre, ?_⟩
            intro x hx
            rcases List.mem_cons.mp hx with rfl | hx
            · exact Or.inr (Or.inr (Or.inl hg))
            · exact hall x hx
        · by_cases hlive : live.contains cd.socketId = true
          · have hmem : cd.socketId ∈ live := by simpa using hlive
            have hred : popCandidateFromQueue u live (cand :: rest) w =
                (rest, w, some (cand, cd)) := by
              simp [popCandidateFromQueue, hskip, hg, hmem]
            rw [hred]
            refine ⟨fun y => Or.inl rfl, by simp, ?_⟩
            intro c d hres
            obtain ⟨rfl, rfl⟩ : cand = c ∧ cd = d := by
              simpa using hres
            exact ⟨hne.1, hne.2, hg, hg, hlive, Nat.lt_succ_self _,
              [], rfl, by simp⟩
          · have hlive' : live.contains cd.socketId = false := by
              simpa using hlive
            have hnm : cd.socketId ∉ live := by simpa using hlive
            have hred : popCandidateFromQueue u live (cand :: rest) w =
                popCandidateFromQueue u live rest (alDel w cand) := by
              simp [popCandidateFromQueue, hskip, hg, hnm]
            obtain ⟨ihA, ihB, ihC⟩ := ih (alDel w cand)
            rw [hred]
            have hA : WaitShrink live w
                (popCandidateFromQueue u live rest (alDel w cand)).2.1 := by
              intro y
              by_cases hy : y = cand
              · right
                have hnone : alGet (alDel w cand) y = none := by
                  rw [hy]
                  exact alGet_alDel_self ..
                have hgy : alGet w y = some cd := by
                  rw [hy]
                  exact hg
                rcases ihA y with h | ⟨h, _⟩
                · exact ⟨h.trans hnone, cd, hgy, hlive'⟩
                · exact ⟨h, cd, hgy, hlive'⟩
              · rcases ihA y with h | ⟨h1, d', h2, h3⟩
                · left
                  rw [h, alGet_alDel_ne _ _ _ hy]
                · right
                  refine ⟨h1, d', ?_, h3⟩
                  rw [← alGet_alDel_ne w cand y hy]
                  exact h2
            have hcand : SkippedOut u live w
                (popCandidateFromQueue u live rest (alDel w cand)).2.1 cand := by
              right; right; right
              refine ⟨cd, hg, hlive', ?_⟩
              have hnone : alGet (alDel w cand) cand = none :=
                alGet_alDel_self ..
              rcases ihA cand with h | ⟨h, _⟩
              · exact h.trans hnone
              · exact h
            have hS : ∀ x, SkippedOut u live (alDel w cand)
                  (popCandidateFromQueue u live rest (alDel w cand)).2.1 x →
                SkippedOut u live w
                  (popCandidateFromQueue u live rest (alDel w cand)).2.1 x := by
              intro x hx
              rcases hx with h | h | h | ⟨d', h1, h2, h3⟩
              · exact Or.inl h
              · exact Or.inr (Or.inl h)
              · by_cases hxc : x = cand
                · rw [hxc]
                  exact hcand
                · right; right; left
                  rw [← alGet_alDel_ne w cand x hxc]
                  exact h
              · by_cases hxc : x = cand
                · rw [hxc, alGet_alDel_self] at h1
                  cases h1
                · right; right; right
                  refine ⟨d', ?_, h2, h3⟩
                  rw [← alGet_alDel_ne w cand x hxc]
                  exact h1
            refine ⟨hA, ?_, ?_⟩
            · intro hres
              obtain ⟨hq, hall⟩ := ihB hres
              refine ⟨hq, ?_⟩
              intro x hx
              rcases List.mem_cons.mp hx with rfl | hx
              · exact hcand
              · exact hS x (hall x hx)
            · intro c d hres
              obtain ⟨h1, h2, h3, h4, h5, hlen, pre, hpre, hall⟩ := ihC c d hres
              have hcnc : c ≠ cand := by
                intro hcc
                subst hcc
                rw [alGet_alDel_self] at h3
                cases h3
              refine ⟨h1, h2, ?_, h4, h5, Nat.lt_succ_of_lt hlen,
                cand :: pre, congrArg (cand :: ·) hpre, ?_⟩
              · rw [← alGet_alDel_ne w cand c hcnc]
                exact h3
              · intro x hx
                rcases List.mem_cons.mp hx with rfl | hx
                · exact hcand
                · exact hS x (hall x hx)

/-- **C3.** `find_partner` from `u`: if `u` is already in a room or in
the waiting-set the call returns silently with no state change;
otherwise the pop loop drops from the head of the queue exactly the
entries that equal `u`, are absent from the waiting-set, or have a dead
socket (those also being deleted from the waiting-set), until a live
waiter is found or the queue is exhausted (each iteration consumes a
queue entry, so the remaining queue shrinks); on success both users
leave the waiting structures, the room is created and both are
notified, and on failure `u` is inserted into the waiting-set and
appended to the queue. -/
theorem c3_find_partner_cases (s : ServerState) (u sid tok : String)
    (a v : Bool) (now : Nat) (rid : String) (hq : "" ∉ s.queue) :
    (userInRoom u s.activeRooms = true ∨ alHas s.waitingUsers u = true →
      findPartnerOp u sid tok a v now rid s = (s, [])) ∧
    (userInRoom u s.activeRooms = false → alHas s.waitingUsers u = false →
      (∀ q1 w1,
        popCandidateFromQueue u s.liveSockets s.queue s.waitingUsers =
          (q1, w1, none) →
        q1 = [] ∧
        (∀ x ∈ s.queue, x = u ∨ alGet s.waitingUsers x = none ∨
          ∃ d, alGet s.waitingUsers x = some d ∧
            s.liveSockets.contains d.socketId = false ∧ alGet w1 x = none) ∧
        findPartnerOp u sid tok a v now rid s =
          ({ s with
              waitingUsers := alSet w1 u
                { socketId := sid, audioEnabled := a, videoEnabled := v,
                  joinTime := now, token := tok },
              queue := q1 ++ [u] }, [])) ∧
      (∀ q1 w1 c d,
        popCandidateFromQueue u s.liveSockets s.queue s.waitingUsers =
          (q1, w1, some (c, d)) →
        c ≠ u ∧ alGet s.waitingUsers c = some d ∧
        s.liveSockets.contains d.socketId = true ∧
        (∃ pre, s.queue = pre ++ c :: q1 ∧
          ∀ x ∈ pre, x = u ∨ alGet s.waitingUsers x = none ∨
            ∃ e, alGet s.waitingUsers x = some e ∧
              s.liveSockets.contains e.socketId = false ∧ alGet w1 x = none) ∧
        q1.length < s.queue.length ∧
        alHas (findPartnerOp u sid tok a v now rid s).1.waitingUsers c = false ∧
        alHas (findPartnerOp u sid tok a v now rid s).1.waitingUsers u = false ∧
        (findPartnerOp u sid tok a v now rid s).1.queue = q1 ∧
        alGet (findPartnerOp u sid tok a v now rid s).1.activeRooms rid =
          some { user1 := { id := (determineInitiator u now c d.joinTime).1,
                            socketId := if (determineInitiator u now c d.joinTime).1 = u
                                        then sid else d.socketId,
                            initiator := true },
                 user2 := { id := (determineInitiator u now c d.joinTime).2,
                            socketId := if (determineInitiator u now c d.joinTime).2 = u
                                        then sid else d.socketId,
                            initiator := false },
                 created := now } ∧
        (findPartnerOp u sid tok a v now rid s).2 =
          [Emit.to (if (determineInitiator u now c d.joinTime).1 = u
                    then sid else d.socketId)
             (Msg.roomAssigned rid true "initiator"
               (determineInitiator u now c d.joinTime).2),
           Emit.to (if (determineInitiator u now c d.joinTime).2 = u
                    then sid else d.socketId)
             (Msg.roomAssigned rid false "responder"
               (determineInitiator u now c d.joinTime).1)])) := by
  obtain ⟨pA, pB, pC⟩ := popCandidate_spec u s.liveSockets s.queue s.waitingUsers
  constructor
  · rintro (h | h) <;> simp [findPartnerOp, h]
  · intro h1 h2
    have hwu : alGet s.waitingUsers u = none := by
      rcases hgu : alGet s.waitingUsers u with _ | e
      · rfl
      · rw [alHas, hgu] at h2
        cases h2
    constructor
    · intro q1 w1 hp
      have hB := pB (by rw [hp])
      rw [hp] at hB
      obtain ⟨hq1, hall⟩ := hB
      refine ⟨hq1, ?_, ?_⟩
      · intro x hx
        rcases hall x hx with h | h | h | h
        · exact absurd (h ▸ hx) hq
        · exact Or.inl h
        · exact Or.inr (Or.inl h)
        · exact Or.inr (Or.inr h)
      · simp only [findPartnerOp, h1, h2, hp, Bool.false_eq_true, if_false]
    · intro q1 w1 c d hp
      have hC := pC c d (by rw [hp])
      rw [hp] at hC
      obtain ⟨hcne, hcu, hwc, hw1c, hlive, hlen, pre, hpre, hall⟩ := hC
      have hs' : findPartnerOp u sid tok a v now rid s =
          ({ s with
              queue := q1,
              waitingUsers := alDel w1 c,
              activeRooms := alSet s.activeRooms rid
                { user1 := { id := (determineInitiator u now c d.joinTime).1,
                             socketId := if (determineInitiator u now c d.joinTime).1 = u
                                         then sid else d.socketId,
                             initiator := true },
                  user2 := { id := (determineInitiator u now c d.joinTime).2,
                             socketId := if (determineInitiator u now c d.joinTime).2 = u
                                         then sid else d.socketId,
                             initiator := false },
                  created := now },
              tokenToUser := s.tokenToUser.map (fun p =>
                (p.1, if p.2.userId = (determineInitiator u now c d.joinTime).1 ∨
                         p.2.userId = (determineInitiator u now c d.joinTime).2 then
                        { p.2 with roomId := some rid }
                      else p.2)) },
           [Emit.to (if (determineInitiator u now c d.joinTime).1 = u
                     then sid else d.socketId)
              (Msg.roomAssigned rid true "initiator"
                (determineInitiator u now c d.joinTime).2),
            Emit.to (if (determineInitiator u now c d.joinTime).2 = u
                     then sid else d.socketId)
              (Msg.roomAssigned rid false "responder"
                (determineInitiator u now c d.joinTime).1)]) := by
        simp only [findPartnerOp, h1, h2, hp, Bool.false_eq_true, if_false]
      have hune : u ≠ c := fun h => hcu h.symm
      refine ⟨hcu, hwc, hlive, ⟨pre, hpre, ?_⟩, hlen, ?_, ?_, ?_, ?_, ?_⟩
      · intro x hx
        have hxq : x ∈ s.queue := by
          rw [hpre]
          exact List.mem_append_left _ hx
        rcases hall x hx with h | h | h | h
        · exact absurd (h ▸ hxq) hq
        · exact Or.inl h
        · exact Or.inr (Or.inl h)
        · exact Or.inr (Or.inr h)
      · rw [hs']
        simp only [alHas]
        rw [alGet_alDel_self]
        rfl
      · rw [hs']
        simp only [alHas]
        rw [alGet_alDel_ne _ _ _ hune]
        rcases pA u with h | ⟨h, _⟩
        · rw [hp] at h
          rw [h, hwu]
          rfl
        · rw [hp] at h
          rw [h]
          rfl
      · rw [hs']
      · rw [hs']
        exact alGet_alSet_self ..
      · rw [hs']

/-- Witness for C3: on the demo trace — a repeated `find_partner` from
the already-waiting `A` is a silent no-op; `A`'s first request on an
empty queue enqueues `A`; `B`'s request pops the live waiter `A` and
creates the room. -/
theorem c3_find_partner_cases_witness :
    findPartnerOp "A" "sA" "tA" true true 9 "rY" demoS3 = (demoS3, []) ∧
    findPartnerOp "A" "sA" "tA" true true 1 "rDemo" demoS2 =
      ({ demoS2 with
          waitingUsers := alSet [] "A"
            { socketId := "sA", audioEnabled := true, videoEnabled := true,
              joinTime := 1, token := "tA" },
          queue := [] ++ ["A"] }, []) ∧
    alGet demoS4.activeRooms "r1" =
      some { user1 := { id := "A", socketId := "sA", initiator := true },
             user2 := { id := "B", socketId := "sB", initiator := false },
             created := 2 } := by
  refine ⟨?_, ?_, ?_⟩
  · exact (c3_find_partner_cases demoS3 "A" "sA" "tA" true true 9 "rY"
      (by decide)).1 (Or.inr (by decide))
  · exact (((c3_find_partner_cases demoS2 "A" "sA" "tA" true true 1 "rDemo"
      (by decide)).2 (by decide) (by decide)).1 [] [] (by decide)).2.2
  · have h := ((c3_find_partner_cases demoS3 "B" "sB" "tB" true true 2 "r1"
      (by decide)).2 (by decide) (by decide)).2 [] demoS3.waitingUsers "A"
      ⟨"sA", true, true, 1, "tA"⟩ (by decide)
    exact h.2.2.2.2.2.2.2.2.1

/-! ### `userCount` bookkeeping -/

/-- The number of tokens whose socket handle is currently attached. -/
def attachedTokenCount (s : ServerState) : Nat :=
  (s.tokenToUser.filter (fun p => p.2.socketId.isSome)).length

theorem reconnectUserOp_userCount (sid : String) (dt : Option String)
    (s : ServerState) : (reconnectUserOp sid dt s).1.userCount = s.userCount := by
  cases dt with
  | none => rfl
  | some t =>
      by_cases ht : t = ""
      · simp [reconnectUserOp, ht]
      · rcases hg : alGet s.tokenToUser t with _ | entry
        · simp [reconnectUserOp, ht, hg]
        · by_cases hu : entry.userId = ""
          · simp [reconnectUserOp, ht, hg, hu]
          · rcases hr : entry.roomId with _ | rid
            · simp [reconnectUserOp, ht, hg, hu, hr, cancelTokenCleanup_userCount]
            · rcases hroom : alGet s.activeRooms rid with _ | room <;>
                simp [reconnectUserOp, ht, hg, hu, hr, cancelTokenCleanup_activeRooms,
                      cancelTokenCleanup_userCount, hroom]

theorem handleConnection_userCount (sid : String) (ct : Option String)
    (fu ft : String) (s : ServerState) :
    (handleConnection sid ct fu ft s).1.userCount = s.userCount ∨
    (handleConnection sid ct fu ft s).1.userCount = s.userCount + 1 := by
  cases ct with
  | none => right; rfl
  | some t =>
      by_cases hc : t ≠ "" ∧
          alHas { s with liveSockets := sid :: s.liveSockets }.tokenToUser t
      · rcases hg : alGet { s with liveSockets := sid :: s.liveSockets }.tokenToUser t
          with _ | entry
        · left
          simp [handleConnection, hc, hg]
        · rcases hr : entry.roomId with _ | rid
          · left
            simp [handleConnection, hc, hg, hr, cancelTokenCleanup_userCount]
          · left
            rcases hroom : alGet s.activeRooms rid with _ | room <;>
              simp [handleConnection, hc, hg, hr, cancelTokenCleanup_activeRooms,
                    cancelTokenCleanup_userCount, hroom]
      · right
        simp [handleConnection, hc, freshConnection]

theorem findPartnerOp_userCount (u sid tok : String) (a v : Bool) (now : Nat)
    (rid : String) (s : ServerState) :
    (findPartnerOp u sid tok a v now rid s).1.userCount = s.userCount := by
  by_cases h1 : userInRoom u s.activeRooms
  · simp [findPartnerOp, h1]
  · by_cases h2 : alHas s.waitingUsers u
    · simp [findPartnerOp, h1, h2]
    · rcases hp : popCandidateFromQueue u s.liveSockets s.queue s.waitingUsers
        with ⟨q1, w1, _ | ⟨c, d⟩⟩ <;> simp [findPartnerOp, h1, h2, hp]

theorem joinRoomOp_userCount (u sid rid : String) (s : ServerState) :
    (joinRoomOp u sid rid s).1.userCount = s.userCount := by
  rcases hg : alGet s.activeRooms rid with _ | room
  · simp [joinRoomOp, hg]
  · by_cases hm : room.user1.id ≠ u ∧ room.user2.id ≠ u <;>
      simp [joinRoomOp, hg, hm]

theorem skipOp_userCount (u : String) (s : ServerState) :
    (skipOp u s).1.userCount = s.userCount := by
  rcases hf : s.activeRooms.find? (fun p =>
      p.2.user1.id == u || p.2.user2.id == u) with _ | ⟨rid, room⟩ <;>
    simp [skipOp, hf, cleanupUserFromWaiting]

theorem handleDisconnect_userCount (u sid : String) (now : Nat) (s : ServerState) :
    (handleDisconnect u sid now s).1.userCount = s.userCount ∧
    Emit.broadcast (Msg.userCountMsg s.userCount) ∈ (handleDisconnect u sid now s).2 := by
  unfold handleDisconnect
  dsimp only
  rcases hf : s.tokenToUser.find?
      (fun p : String × TokenEntry => p.2.userId == u) with _ | ⟨t, e⟩ <;>
    simp [hf, cleanupUserFromWaiting, scheduleTokenCleanup_userCount]

theorem cleanupRoomIfBothDisconnected_userCount (rid : String) (s : ServerState) :
    (cleanupRoomIfBothDisconnected rid s).userCount = s.userCount := by
  unfold cleanupRoomIfBothDisconnected
  split <;> try rfl
  split <;> rfl

theorem step_userCount_mono {s s' : ServerState} (h : Step s s') :
    s.userCount ≤ s'.userCount := by
  cases h with
  | connect sid ct fu ft =>
      rcases handleConnection_userCount sid ct fu ft s with h | h <;> omega
  | reconnect sid dt => rw [reconnectUserOp_userCount]
  | findPartner u sid tok a v now rid => rw [findPartnerOp_userCount]
  | joinRoom u sid rid => rw [joinRoomOp_userCount]
  | skip u => rw [skipOp_userCount]
  | disconnect u sid now => rw [(handleDisconnect_userCount u sid now s).1]
  | tokenReaper t => rw [fireTokenCleanup_userCount]
  | roomReaper rid => rw [cleanupRoomIfBothDisconnected_userCount]
  | status => exact Nat.le_refl _

/-- **C4 counterexample.** After `A` connects and then disconnects, the
disconnect handler broadcasts `user_count = 1` while zero tokens have an
attached socket, so the broadcast count does not equal the number of
attached tokens after every registry operation. -/
theorem c4_user_count_counterexample :
    Emit.broadcast (Msg.userCountMsg 1) ∈ (handleDisconnect "A" "sA" 100 demoS1).2 ∧
    attachedTokenCount (handleDisconnect "A" "sA" 100 demoS1).1 = 0 ∧
    (1 : Nat) ≠ 0 := by
  decide

/-- **C4 amended.** The broadcast `user_count` equals the internal
`userCount` counter, which counts fresh identities: it is incremented
exactly when a new identity attaches (and that value is broadcast),
while socket detach re-broadcasts the unchanged counter and token
expiry leaves it unchanged; across every registry operation the counter
never decreases.  After a detach it therefore overcounts the tokens
with an attached socket. -/
theorem c4_user_count_amended :
    (∀ (sid fu ft : String) (s : ServerState),
        (freshConnection sid fu ft s).1.userCount = s.userCount + 1 ∧
        Emit.broadcast (Msg.userCountMsg (s.userCount + 1)) ∈
          (freshConnection sid fu ft s).2) ∧
    (∀ (u sid : String) (now : Nat) (s : ServerState),
        (handleDisconnect u sid now s).1.userCount = s.userCount ∧
        Emit.broadcast (Msg.userCountMsg s.userCount) ∈
          (handleDisconnect u sid now s).2) ∧
    (∀ (t : String) (s : ServerState),
        (fireTokenCleanup t s).userCount = s.userCount) ∧
    (∀ s s' : ServerState, Step s s' → s.userCount ≤ s'.userCount) := by
  refine ⟨?_, ?_, ?_, ?_⟩
  · intro sid fu ft s
    exact ⟨rfl, List.mem_cons_self _ _⟩
  · intro u sid now s
    exact handleDisconnect_userCount u sid now s
  · intro t s
    exact fireTokenCleanup_userCount t s
  · intro s s' h
    exact step_userCount_mono h

/-- Witness for the amended C4 at the demo trace. -/
theorem c4_user_count_amended_witness :
    (freshConnection "sA" "A" "tA" initState).1.userCount = 1 ∧
    (handleDisconnect "A" "sA" 100 demoS1).1.userCount = 1 ∧
    demoS1.userCount ≤ (handleDisconnect "A" "sA" 100 demoS1).1.userCount := by
  refine ⟨?_, ?_, ?_⟩
  · exact (c4_user_count_amended.1 "sA" "A" "tA" initState).1
  · exact (c4_user_count_amended.2.1 "A" "sA" 100 demoS1).1
  · exact c4_user_count_amended.2.2.2 demoS1 _
      (Step.disconnect demoS1 "A" "sA" 100)

/-! ### Token reaper lifecycle (C5) -/

theorem cleanupUserFromWaiting_tokenToUser (u : String) (s : ServerState) :
    (cleanupUserFromWaiting u s).tokenToUser = s.tokenToUser := rfl

theorem cancelTokenCleanup_alGet (t : String) (s : ServerState) (e : TokenEntry)
    (hg : alGet s.tokenToUser t = some e) :
    alGet (cancelTokenCleanup t s).tokenToUser t =
      some { e with cleanupTimer := false } := by
  unfold cancelTokenCleanup
  rw [hg]
  dsimp only
  by_cases htm : e.cleanupTimer
  · rw [if_pos htm]
    dsimp only
    rw [alGet_alSet_self]
  · rw [if_neg htm]
    rw [hg]
    have : ({ e with cleanupTimer := false } : TokenEntry) = e := by
      cases e
      simp_all
    rw [this]

theorem handleConnection_token_rebind (sid t fu ft : String) (s : ServerState)
    (entry : TokenEntry) (ht : t ≠ "") (hg : alGet s.tokenToUser t = some entry) :
    (handleConnection sid (some t) fu ft s).1.tokenToUser =
      (cancelTokenCleanup t { s with
         liveSockets := sid :: s.liveSockets,
         tokenToUser := alSet s.tokenToUser t
           { entry with socketId := some sid } }).tokenToUser := by
  have hg0 : alGet ({ s with liveSockets := sid :: s.liveSockets} :
      ServerState).tokenToUser t = some entry := hg
  have hhas : alHas ({ s with liveSockets := sid :: s.liveSockets} :
      ServerState).tokenToUser t = true := by
    rw [alHas, hg0]
    rfl
  simp only [handleConnection, if_pos (And.intro ht hhas), hg0]
  dsimp only
  rcases hr : entry.roomId with _ | rid
  · rfl
  · rw [cancelTokenCleanup_activeRooms]
    dsimp only
    rcases hroom : alGet s.activeRooms rid with _ | room <;> rfl

theorem reconnectUserOp_token_rebind (sid t : String) (s : ServerState)
    (entry : TokenEntry) (ht : t ≠ "") (hg : alGet s.tokenToUser t = some entry)
    (hu : entry.userId ≠ "") :
    (reconnectUserOp sid (some t) s).1.tokenToUser =
      (cancelTokenCleanup t { s with
         tokenToUser := alSet s.tokenToUser t { entry with socketId := some sid },
         userConnections := alSet s.userConnections entry.userId sid }).tokenToUser := by
  simp only [reconnectUserOp, if_neg ht, hg]
  rw [if_neg hu]
  rcases hr : entry.roomId with _ | rid
  · rfl
  · rw [cancelTokenCleanup_activeRooms]
    dsimp only
    rcases hroom : alGet s.activeRooms rid with _ | room <;> rfl

/-- **C5.** The token reaper is a guarded one-shot: detaching a socket
clears the token's socket handle, stamps `lastSeen` and leaves a pending
cleanup timer (arming is idempotent while a timer is pending); the
timer body deletes the token iff it still has no socket and no room at
that moment; and both rebind paths (handshake attach and
`reconnect_user`) reattach the socket and cancel the pending timer, so
an attached token is never deleted when the reaper fires. -/
theorem c5_token_reaper :
    (∀ (u sid : String) (now : Nat) (s : ServerState) (t : String) (e : TokenEntry),
        s.tokenToUser.find? (fun p => p.2.userId == u) = some (t, e) →
        alGet (handleDisconnect u sid now s).1.tokenToUser t =
          some { e with socketId := none, lastSeen := some now,
                        cleanupTimer := true }) ∧
    (∀ (t : String) (s : ServerState) (e : TokenEntry),
        alGet s.tokenToUser t = some e → e.cleanupTimer = true →
        scheduleTokenCleanup t s = s) ∧
    (∀ (t : String) (s : ServerState) (cur : TokenEntry),
        alGet s.tokenToUser t = some cur →
        cur.socketId = none → cur.roomId = none →
        alGet (fireTokenCleanup t s).tokenToUser t = none) ∧
    (∀ (t : String) (s : ServerState) (cur : TokenEntry),
        alGet s.tokenToUser t = some cur →
        cur.socketId ≠ none ∨ cur.roomId ≠ none →
        alGet (fireTokenCleanup t s).tokenToUser t =
          some { cur with cleanupTimer := false }) ∧
    (∀ (sid t fu ft : String) (s : ServerState) (entry : TokenEntry),
        t ≠ "" → alGet s.tokenToUser t = some entry →
        alGet (handleConnection sid (some t) fu ft s).1.tokenToUser t =
          some { entry with socketId := some sid, cleanupTimer := false }) ∧
    (∀ (sid t : String) (s : ServerState) (entry : TokenEntry),
        t ≠ "" → alGet s.tokenToUser t = some entry → entry.userId ≠ "" →
        alGet (reconnectUserOp sid (some t) s).1.tokenToUser t =
          some { entry with socketId := some sid, cleanupTimer := false }) := by
  refine ⟨?_, ?_, ?_, ?_, ?_, ?_⟩
  · intro u sid now s t e hf
    unfold handleDisconnect
    dsimp only
    rw [hf]
    dsimp only
    rw [cleanupUserFromWaiting_tokenToUser]
    unfold scheduleTokenCleanup
    rw [show ({ s with
        liveSockets := s.liveSockets.erase sid,
        tokenToUser := alSet s.tokenToUser t
          { e with socketId := none, lastSeen := some now } } :
        ServerState).tokenToUser = alSet s.tokenToUser t
          { e with socketId := none, lastSeen := some now } from rfl,
      alGet_alSet_self]
    dsimp only
    by_cases htm : e.cleanupTimer
    · rw [if_pos htm]
      dsimp only
      rw [alGet_alSet_self, htm]
    · rw [if_neg htm]
      dsimp only
      rw [alGet_alSet_self]
  · intro t s e hg htm
    unfold scheduleTokenCleanup
    rw [hg]
    dsimp only
    rw [if_pos htm]
  · intro t s cur hg hsock hroom
    unfold fireTokenCleanup
    rw [hg]
    dsimp only
    rw [if_pos ⟨hsock, hroom⟩]
    exact alGet_alDel_self ..
  · intro t s cur hg hor
    unfold fireTokenCleanup
    rw [hg]
    dsimp only
    rw [if_neg (by
      rintro ⟨h1, h2⟩
      rcases hor with h | h
      · exact h h1
      · exact h h2)]
    exact alGet_alSet_self ..
  · intro sid t fu ft s entry ht hg
    rw [handleConnection_token_rebind sid t fu ft s entry ht hg]
    exact cancelTokenCleanup_alGet t _ { entry with socketId := some sid }
      (alGet_alSet_self ..)
  · intro sid t s entry ht hg hu
    rw [reconnectUserOp_token_rebind sid t s entry ht hg hu]
    exact cancelTokenCleanup_alGet t _ { entry with socketId := some sid }
      (alGet_alSet_self ..)

/-- The demo state after `A`'s socket detaches. -/
def demoDet : ServerState := (handleDisconnect "A" "sA" 100 demoS1).1

/-- Witness for C5 on the demo trace: detach arms the reaper, re-arming
is a no-op, firing deletes the idle token but keeps an attached one,
and both rebind paths reattach and disarm. -/
theorem c5_token_reaper_witness :
    alGet demoDet.tokenToUser "tA" =
      some { userId := "A", socketId := none, roomId := none,
             cleanupTimer := true, lastSeen := some 100 } ∧
    scheduleTokenCleanup "tA" demoDet = demoDet ∧
    alGet (fireTokenCleanup "tA" demoDet).tokenToUser "tA" = none ∧
    alGet (fireTokenCleanup "tA" demoS1).tokenToUser "tA" =
      some { userId := "A", socketId := some "sA", roomId := none,
             cleanupTimer := false, lastSeen := none } ∧
    alGet (handleConnection "sA2" (some "tA") "X" "tX" demoDet).1.tokenToUser "tA" =
      some { userId := "A", socketId := some "sA2", roomId := none,
             cleanupTimer := false, lastSeen := some 100 } ∧
    alGet (reconnectUserOp "sA2" (some "tA") demoDet).1.tokenToUser "tA" =
      some { userId := "A", socketId := some "sA2", roomId := none,
             cleanupTimer := false, lastSeen := some 100 } := by
  refine ⟨?_, ?_, ?_, ?_, ?_, ?_⟩
  · exact c5_token_reaper.1 "A" "sA" 100 demoS1 "tA"
      { userId := "A", socketId := some "sA", roomId := none,
        cleanupTimer := false, lastSeen := none } (by decide)
  · exact c5_token_reaper.2.1 "tA" demoDet
      { userId := "A", socketId := none, roomId := none,
        cleanupTimer := true, lastSeen := some 100 } (by decide) rfl
  · exact c5_token_reaper.2.2.1 "tA" demoDet
      { userId := "A", socketId := none, roomId := none,
        cleanupTimer := true, lastSeen := some 100 } (by decide) rfl rfl
  · exact c5_token_reaper.2.2.2.1 "tA" demoS1
      { userId := "A", socketId := some "sA", roomId := none,
        cleanupTimer := false, lastSeen := none } (by decide)
      (Or.inl (by decide))
  · exact c5_token_reaper.2.2.2.2.1 "sA2" "tA" "X" "tX" demoDet
      { userId := "A", socketId := none, roomId := none,
        cleanupTimer := true, lastSeen := some 100 } (by decide) (by decide)
  · exact c5_token_reaper.2.2.2.2.2 "sA2" "tA" demoDet
      { userId := "A", socketId := none, roomId := none,
        cleanupTimer := true, lastSeen := some 100 } (by decide) (by decide)
      (by decide)

/-! ### Room-age cap (C6) -/

/-- A state holding one room created at time 0. -/
def oldRoomState : ServerState :=
  { initState with activeRooms :=
      [("rOld", { user1 := { id := "A", socketId := "sA", initiator := true },
                  user2 := { id := "B", socketId := "sB", initiator := false },
                  created := 0 })] }

/-- **C6 counterexample.** In the socket.io server the periodic task
(server.js 348-351) only logs: at wall time `10^9` ms the room created
at 0 is far beyond the 10-minute cap, yet the tick leaves the state —
and in particular the over-age room — completely unchanged, so that
server enforces no room-age cap. -/
theorem c6_room_age_cap_counterexample :
    (1000000000 : Nat) - 0 > 10 * 60 * 1000 ∧
    statusTick oldRoomState = oldRoomState ∧
    alHas (statusTick oldRoomState).activeRooms "rOld" = true := by
  refine ⟨by decide, rfl, by decide⟩

/-- **C6 amended.** Only the queue-variant server (part_004) enforces
the 10-minute cap: its periodic cleanup keeps a room iff it already
existed and its age is at most `10 * 60 * 1000` ms, so after a tick no
over-age room remains; the socket.io server's periodic task is the
identity on the state. -/
theorem c6_room_age_cap_amended :
    (∀ (now : Nat) (s : ServerState) (p : String × Room),
        p ∈ (cleanupOldRoomsTick now s).activeRooms ↔
          p ∈ s.activeRooms ∧ now - p.2.created ≤ 10 * 60 * 1000) ∧
    (∀ (now : Nat) (s : ServerState) (p : String × Room),
        p ∈ (cleanupOldRoomsTick now s).activeRooms →
          now - p.2.created ≤ 10 * 60 * 1000) ∧
    (∀ s : ServerState, statusTick s = s) := by
  have hmem : ∀ (now : Nat) (s : ServerState) (p : String × Room),
      p ∈ (cleanupOldRoomsTick now s).activeRooms ↔
        p ∈ s.activeRooms ∧ now - p.2.created ≤ 10 * 60 * 1000 := by
    intro now s p
    simp only [cleanupOldRoomsTick, List.mem_filter, decide_eq_true_eq]
    exact and_congr_right (fun _ => by omega)
  exact ⟨hmem, fun now s p hp => ((hmem now s p).mp hp).2, fun _ => rfl⟩

/-- Witness for the amended C6: a fresh room survives a tick and is
within the cap; the socket.io tick is the identity at a concrete state. -/
theorem c6_room_age_cap_amended_witness :
    (("rOld", { user1 := { id := "A", socketId := "sA", initiator := true },
                user2 := { id := "B", socketId := "sB", initiator := false },
                created := 0 }) : String × Room) ∈
      (cleanupOldRoomsTick 100 oldRoomState).activeRooms ∧
    (100 : Nat) - 0 ≤ 10 * 60 * 1000 ∧
    statusTick oldRoomState = oldRoomState := by
  refine ⟨?_, ?_, c6_room_age_cap_amended.2.2 oldRoomState⟩
  · exact (c6_room_age_cap_amended.1 100 oldRoomState _).mpr
      ⟨by decide, by decide⟩
  · exact c6_room_age_cap_amended.2.1 100 oldRoomState
      ("rOld", { user1 := { id := "A", socketId := "sA", initiator := true },
                 user2 := { id := "B", socketId := "sB", initiator := false },
                 created := 0 })
      ((c6_room_age_cap_amended.1 100 oldRoomState _).mpr ⟨by decide, by decide⟩)

/-! ### Reconnect into a live room (C7) -/

/-- The demo state after the paired user `A` drops out of room `r1`. -/
def demoDrop : ServerState := (handleDisconnect "A" "sA" 100 demoS4).1

/-- **C7 counterexample.** `A` reconnects with a new socket `sA2` via
the explicit `reconnect_user` message while room `r1` still exists: the
partner is notified, but the member record inside the room keeps the
stale socket `sA` — the `reconnect_user` path does not rebind the
socket inside the room, contradicting the claim that every
reconnect path does. -/
theorem c7_reconnect_counterexample :
    (alGet (reconnectUserOp "sA2" (some "tA") demoDrop).1.activeRooms "r1").map
        (fun r => r.user1.socketId) = some "sA" ∧
    "sA" ≠ "sA2" ∧
    Emit.to "sB" (Msg.partnerReconnected "r1" "A") ∈
      (reconnectUserOp "sA2" (some "tA") demoDrop).2 := by
  refine ⟨by decide, by decide, by decide⟩

/-- **C7 amended.** On reconnect via a known token whose `roomId` names
an existing room: the handshake-attach path rebinds the member's socket
inside the room record and, if the partner's socket is attached, sends
it `partner_reconnected{room, partnerId}`; the `reconnect_user` path
sends the same notification but leaves the room record (and hence the
member's socket handle) unchanged. -/
theorem c7_reconnect_amended :
    (∀ (sid t fu ft : String) (s : ServerState) (entry : TokenEntry)
        (rid : String) (room : Room),
        t ≠ "" → alGet s.tokenToUser t = some entry →
        entry.roomId = some rid → alGet s.activeRooms rid = some room →
        alGet (handleConnection sid (some t) fu ft s).1.activeRooms rid =
          some (rebindMemberSockets entry.userId sid room) ∧
        ((sid :: s.liveSockets).contains
            (if (rebindMemberSockets entry.userId sid room).user1.id = entry.userId
             then (rebindMemberSockets entry.userId sid room).user2
             else (rebindMemberSockets entry.userId sid room).user1).socketId = true →
          Emit.to (if (rebindMemberSockets entry.userId sid room).user1.id = entry.userId
                   then (rebindMemberSockets entry.userId sid room).user2
                   else (rebindMemberSockets entry.userId sid room).user1).socketId
              (Msg.partnerReconnected rid entry.userId) ∈
            (handleConnection sid (some t) fu ft s).2)) ∧
    (∀ (sid t : String) (s : ServerState) (entry : TokenEntry)
        (rid : String) (room : Room),
        t ≠ "" → alGet s.tokenToUser t = some entry → entry.userId ≠ "" →
        entry.roomId = some rid → alGet s.activeRooms rid = some room →
        (reconnectUserOp sid (some t) s).1.activeRooms = s.activeRooms ∧
        (s.liveSockets.contains
            (if room.user1.id = entry.userId then room.user2 else room.user1).socketId = true →
          Emit.to (if room.user1.id = entry.userId then room.user2 else room.user1).socketId
              (Msg.partnerReconnected rid entry.userId) ∈
            (reconnectUserOp sid (some t) s).2)) := by
  constructor
  · intro sid t fu ft s entry rid room ht hg hr hroom
    have hg0 : alGet ({ s with liveSockets := sid :: s.liveSockets} :
        ServerState).tokenToUser t = some entry := hg
    have hhas : alHas ({ s with liveSockets := sid :: s.liveSockets} :
        ServerState).tokenToUser t = true := by
      rw [alHas, hg0]
      rfl
    simp only [handleConnection, if_pos (And.intro ht hhas), hg0]
    dsimp only
    rw [hr]
    dsimp only
    rw [cancelTokenCleanup_activeRooms]
    dsimp only
    rw [hroom]
    dsimp only
    constructor
    · exact alGet_alSet_self ..
    · intro hc
      rw [cancelTokenCleanup_liveSockets]
      dsimp only
      rw [if_pos hc]
      exact List.mem_append_right _ (List.mem_cons_self _ _)
  · intro sid t s entry rid room ht hg hu hr hroom
    simp only [reconnectUserOp, if_neg ht, hg]
    rw [if_neg hu]
    rw [hr]
    dsimp only
    rw [cancelTokenCleanup_activeRooms]
    dsimp only
    rw [hroom]
    dsimp only
    refine ⟨?_, ?_⟩
    · exact cancelTokenCleanup_activeRooms ..
    · intro hc
      rw [cancelTokenCleanup_liveSockets]
      dsimp only
      rw [if_pos hc]
      exact List.mem_append_right _ (List.mem_cons_self _ _)

/-- Witness for the amended C7 on the demo trace: the handshake attach
with `tA` rebinds `A`'s socket to `sA2` inside room `r1` and notifies
`B`; `reconnect_user` notifies `B` but leaves the rooms map unchanged. -/
theorem c7_reconnect_amended_witness :
    alGet (handleConnection "sA2" (some "tA") "X" "tX" demoDrop).1.activeRooms "r1" =
      some { user1 := { id := "A", socketId := "sA2", initiator := true },
             user2 := { id := "B", socketId := "sB", initiator := false },
             created := 2 } ∧
    Emit.to "sB" (Msg.partnerReconnected "r1" "A") ∈
      (handleConnection "sA2" (some "tA") "X" "tX" demoDrop).2 ∧
    (reconnectUserOp "sA2" (some "tA") demoDrop).1.activeRooms =
      demoDrop.activeRooms ∧
    Emit.to "sB" (Msg.partnerReconnected "r1" "A") ∈
      (reconnectUserOp "sA2" (some "tA") demoDrop).2 := by
  have h1 := c7_reconnect_amended.1 "sA2" "tA" "X" "tX" demoDrop
    { userId := "A", socketId := none, roomId := some "r1",
      cleanupTimer := true, lastSeen := some 100 }
    "r1"
    { user1 := { id := "A", socketId := "sA", initiator := true },
      user2 := { id := "B", socketId := "sB", initiator := false },
      created := 2 }
    (by decide) (by decide) rfl (by decide)
  have h2 := c7_reconnect_amended.2 "sA2" "tA" demoDrop
    { userId := "A", socketId := none, roomId := some "r1",
      cleanupTimer := true, lastSeen := some 100 }
    "r1"
    { user1 := { id := "A", socketId := "sA", initiator := true },
      user2 := { id := "B", socketId := "sB", initiator := false },
      created := 2 }
    (by decide) (by decide) (by decide) rfl (by decide)
  exact ⟨h1.1, h1.2 (by decide), h2.1, h2.2 (by decide)⟩

/-! ### `skip` (C8, C10) and `join_room` (C9) -/

/-- **C8.** `skip(u)` has exactly three cases: if `u` is in a room, the
partner's socket (when attached) receives `partner_skipped`, the room is
deleted, and every token of the two members gets `roomId` cleared;
otherwise, if `u` is in the waiting-set, `u` is removed from the
waiting-set and spliced out of the queue with nothing emitted; otherwise
the whole operation is a no-op leaving the state unchanged. -/
theorem c8_skip_cases :
    (∀ (u : String) (s : ServerState) (rid : String) (room : Room),
        s.activeRooms.find? (fun p => p.2.user1.id == u || p.2.user2.id == u) =
          some (rid, room) →
        (skipOp u s).2 =
          (if s.liveSockets.contains
              (if room.user1.id = u then room.user2 else room.user1).socketId
           then [Emit.to
                   (if room.user1.id = u then room.user2 else room.user1).socketId
                   Msg.partnerSkipped]
           else []) ∧
        (skipOp u s).1.activeRooms = alDel s.activeRooms rid ∧
        (∀ (k : String) (e : TokenEntry), alGet s.tokenToUser k = some e →
          alGet (skipOp u s).1.tokenToUser k =
            some (if e.userId = u ∨ e.userId =
                    (if room.user1.id = u then room.user2 else room.user1).id
                  then { e with roomId := none } else e))) ∧
    (∀ (u : String) (s : ServerState),
        s.activeRooms.find? (fun p => p.2.user1.id == u || p.2.user2.id == u) =
          none →
        (skipOp u s).1.waitingUsers = alDel s.waitingUsers u ∧
        (skipOp u s).1.queue = s.queue.erase u ∧
        (skipOp u s).2 = []) ∧
    (∀ (u : String) (s : ServerState),
        s.activeRooms.find? (fun p => p.2.user1.id == u || p.2.user2.id == u) =
          none →
        alGet s.waitingUsers u = none → u ∉ s.queue →
        skipOp u s = (s, [])) := by
  refine ⟨?_, ?_, ?_⟩
  · intro u s rid room hf
    refine ⟨by simp only [skipOp, hf], by simp only [skipOp, hf], ?_⟩
    intro k e hg
    simp only [skipOp, hf]
    rw [alGet_map_setRoom, hg]
    rfl
  · intro u s hf
    exact ⟨by simp only [skipOp, hf, cleanupUserFromWaiting],
           by simp only [skipOp, hf, cleanupUserFromWaiting],
           by simp only [skipOp, hf]⟩
  · intro u s hf hw hq
    simp only [skipOp, hf, cleanupUserFromWaiting]
    rw [alDel_of_alGet_none _ _ hw, List.erase_of_not_mem hq]

/-- Witness for C8 on the demo trace: `A` skipping inside room `r1`
notifies `B` and deletes the room with both tokens' `roomId` cleared;
`A` skipping while waiting leaves the room map alone and clears the
waiting structures; a skip from the idle `C` changes nothing. -/
theorem c8_skip_cases_witness :
    (skipOp "A" demoS4).2 = [Emit.to "sB" Msg.partnerSkipped] ∧
    (skipOp "A" demoS4).1.activeRooms = alDel demoS4.activeRooms "r1" ∧
    alGet (skipOp "A" demoS4).1.tokenToUser "tB" =
      some { userId := "B", socketId := some "sB", roomId := none,
             cleanupTimer := false, lastSeen := none } ∧
    (skipOp "A" demoS3).1.waitingUsers = alDel demoS3.waitingUsers "A" ∧
    (skipOp "A" demoS3).1.queue = demoS3.queue.erase "A" ∧
    skipOp "C" demoS4 = (demoS4, []) := by
  have h1 := c8_skip_cases.1 "A" demoS4 "r1"
    { user1 := { id := "A", socketId := "sA", initiator := true },
      user2 := { id := "B", socketId := "sB", initiator := false },
      created := 2 } (by decide)
  have h2 := c8_skip_cases.2.1 "A" demoS3 (by decide)
  have h3 := c8_skip_cases.2.2 "C" demoS4 (by decide) (by decide) (by decide)
  refine ⟨?_, h1.2.1, ?_, h2.1, h2.2.1, h3⟩
  · rw [h1.1]
    decide
  · rw [h1.2.2 "tB"
      { userId := "B", socketId := some "sB", roomId := some "r1",
        cleanupTimer := false, lastSeen := none } (by decide)]
    decide

/-- **C10.** When `u` is a member of a room, `skip(u)` changes only the
rooms map and the members' token `roomId` fields: the waiting-set, the
queue, the user counter, the live-socket set and the connection index
are untouched (in particular nobody is re-enqueued), and every token
entry keeps its identity, socket, timer and `lastSeen` fields. -/
theorem c10_skip_frame :
    ∀ (u : String) (s : ServerState),
      userInRoom u s.activeRooms = true →
      (skipOp u s).1.waitingUsers = s.waitingUsers ∧
      (skipOp u s).1.queue = s.queue ∧
      (skipOp u s).1.userCount = s.userCount ∧
      (skipOp u s).1.liveSockets = s.liveSockets ∧
      (skipOp u s).1.userConnections = s.userConnections ∧
      (∀ k, (alGet (skipOp u s).1.tokenToUser k).map
          (fun e => (e.userId, e.socketId, e.cleanupTimer, e.lastSeen)) =
        (alGet s.tokenToUser k).map
          (fun e => (e.userId, e.socketId, e.cleanupTimer, e.lastSeen))) := by
  intro u s hin
  have hf : s.activeRooms.find?
      (fun p => p.2.user1.id == u || p.2.user2.id == u) ≠ none := by
    intro hnone
    rw [userInRoom, List.any_eq_true] at hin
    obtain ⟨p, hp, hpred⟩ := hin
    rw [List.find?_eq_none] at hnone
    exact absurd hpred (by simpa using hnone p hp)
  rcases hfind : s.activeRooms.find?
      (fun p => p.2.user1.id == u || p.2.user2.id == u) with _ | ⟨rid, room⟩
  · exact absurd hfind hf
  · refine ⟨by simp only [skipOp, hfind], by simp only [skipOp, hfind],
      by simp only [skipOp, hfind], by simp only [skipOp, hfind],
      by simp only [skipOp, hfind], ?_⟩
    intro k
    simp only [skipOp, hfind]
    rw [alGet_map_setRoom]
    rcases alGet s.tokenToUser k with _ | e
    · rfl
    · dsimp only [Option.map]
      split <;> first | rfl | (split <;> rfl)

/-- Witness for C10: `A` skipping inside room `r1` of the demo trace
leaves everything but the rooms map and the tokens' `roomId` intact. -/
theorem c10_skip_frame_witness :
    (skipOp "A" demoS4).1.waitingUsers = demoS4.waitingUsers ∧
    (skipOp "A" demoS4).1.queue = demoS4.queue ∧
    (skipOp "A" demoS4).1.userCount = demoS4.userCount ∧
    (skipOp "A" demoS4).1.liveSockets = demoS4.liveSockets ∧
    (skipOp "A" demoS4).1.userConnections = demoS4.userConnections ∧
    (alGet (skipOp "A" demoS4).1.tokenToUser "tA").map
        (fun e => (e.userId, e.socketId, e.cleanupTimer, e.lastSeen)) =
      (alGet demoS4.tokenToUser "tA").map
        (fun e => (e.userId, e.socketId, e.cleanupTimer, e.lastSeen)) := by
  have h := c10_skip_frame "A" demoS4 (by decide)
  exact ⟨h.1, h.2.1, h.2.2.1, h.2.2.2.1, h.2.2.2.2.1, h.2.2.2.2.2 "tA"⟩

/-- **C9.** `join_room` replies exactly as specified: a missing room
yields `join_failed{no_room}`; an existing room of which the caller is
neither member yields `join_failed{not_authorized}`; a member gets its
socket handle rebound in the room record and receives
`room_joined{room, role, partner_id}` with the role derived from its
initiator flag and the partner's id. -/
theorem c9_join_room_cases :
    ∀ (u sid rid : String) (s : ServerState),
      (alGet s.activeRooms rid = none →
        joinRoomOp u sid rid s =
          (s, [Emit.to sid (Msg.joinFailed "no_room")])) ∧
      (∀ room, alGet s.activeRooms rid = some room →
        room.user1.id ≠ u → room.user2.id ≠ u →
        joinRoomOp u sid rid s =
          (s, [Emit.to sid (Msg.joinFailed "not_authorized")])) ∧
      (∀ room, alGet s.activeRooms rid = some room →
        room.user1.id = u → room.user2.id ≠ u →
        (joinRoomOp u sid rid s).1.activeRooms =
          alSet s.activeRooms rid
            { room with user1 := { room.user1 with socketId := sid } } ∧
        (joinRoomOp u sid rid s).2 =
          [Emit.to sid (Msg.roomJoined rid room.user1.initiator
            (if room.user1.initiator then "initiator" else "responder")
            room.user2.id)]) ∧
      (∀ room, alGet s.activeRooms rid = some room →
        room.user1.id ≠ u → room.user2.id = u →
        (joinRoomOp u sid rid s).1.activeRooms =
          alSet s.activeRooms rid
            { room with user2 := { room.user2 with socketId := sid } } ∧
        (joinRoomOp u sid rid s).2 =
          [Emit.to sid (Msg.roomJoined rid room.user2.initiator
            (if room.user2.initiator then "initiator" else "responder")
            room.user1.id)]) := by
  intro u sid rid s
  refine ⟨?_, ?_, ?_, ?_⟩
  · intro hg
    simp only [joinRoomOp, hg]
  · intro room hg h1 h2
    simp only [joinRoomOp, hg]
    rw [if_pos ⟨h1, h2⟩]
  · intro room hg h1 h2
    have hcond : ¬ (room.user1.id ≠ u ∧ room.user2.id ≠ u) := by
      rintro ⟨hc, _⟩
      exact hc h1
    simp only [joinRoomOp, hg]
    rw [if_neg hcond]
    dsimp only
    rw [rebindMemberSockets, if_pos h1]
    dsimp only
    rw [if_neg h2, if_pos h1]
    exact ⟨rfl, by rw [if_pos h1]⟩
  · intro room hg h1 h2
    have hcond : ¬ (room.user1.id ≠ u ∧ room.user2.id ≠ u) := by
      rintro ⟨_, hc⟩
      exact hc h2
    simp only [joinRoomOp, hg]
    rw [if_neg hcond]
    dsimp only
    rw [rebindMemberSockets, if_neg h1]
    dsimp only
    rw [if_pos h2, if_neg h1]
    exact ⟨rfl, by rw [if_neg h1]⟩

/-- Witness for C9 on the demo trace: a `join_room` for a missing room,
a foreign user's join, and both members rejoining room `r1`. -/
theorem c9_join_room_cases_witness :
    joinRoomOp "A" "sX" "nope" demoS4 =
      (demoS4, [Emit.to "sX" (Msg.joinFailed "no_room")]) ∧
    joinRoomOp "C" "sC" "r1" demoS4 =
      (demoS4, [Emit.to "sC" (Msg.joinFailed "not_authorized")]) ∧
    (joinRoomOp "A" "sA2" "r1" demoS4).1.activeRooms =
      alSet demoS4.activeRooms "r1"
        { user1 := { id := "A", socketId := "sA2", initiator := true },
          user2 := { id := "B", socketId := "sB", initiator := false },
          created := 2 } ∧
    (joinRoomOp "A" "sA2" "r1" demoS4).2 =
      [Emit.to "sA2" (Msg.roomJoined "r1" true "initiator" "B")] ∧
    (joinRoomOp "B" "sB2" "r1" demoS4).2 =
      [Emit.to "sB2" (Msg.roomJoined "r1" false "responder" "A")] := by
  have hno := (c9_join_room_cases "A" "sX" "nope" demoS4).1 (by decide)
  have hforeign := (c9_join_room_cases "C" "sC" "r1" demoS4).2.1
    { user1 := { id := "A", socketId := "sA", initiator := true },
      user2 := { id := "B", socketId := "sB", initiator := false },
      created := 2 } (by decide) (by decide) (by decide)
  have hmem1 := (c9_join_room_cases "A" "sA2" "r1" demoS4).2.2.1
    { user1 := { id := "A", socketId := "sA", initiator := true },
      user2 := { id := "B", socketId := "sB", initiator := false },
      created := 2 } (by decide) rfl (by decide)
  have hmem2 := (c9_join_room_cases "B" "sB2" "r1" demoS4).2.2.2
    { user1 := { id := "A", socketId := "sA", initiator := true },
      user2 := { id := "B", socketId := "sB", initiator := false },
      created := 2 } (by decide) (by decide) rfl
  refine ⟨hno, hforeign, hmem1.1, ?_, ?_⟩
  · rw [hmem1.2]
    decide
  · rw [hmem2.2]
    decide

end WebrtcSignal
